import Mathlib

/-!
# Funnel: HTTP gateway mux, storage staging, worker and scheduler

A shallow embedding of `server/http.go` (the HTTP mux in front of the gRPC
gateway) together with the parts of Go's `net/http` it drives, followed by
models of the storage, worker and scheduler contracts exercised by the
end-to-end tests under `tests/`.

Conventions.
* A `ResponseWriter` is the method of the request it answers and the sequence
  of method calls made on it; what `net/http` sends for such a sequence is
  computed by `ResponseWriter.response`.
* A handler value (a Go closure or an externally supplied `http.Handler`) is a
  term of `Handler`; `Handler.ServeHTTP` runs it.
* Header keys are stored under their canonical MIME form, as `net/textproto`
  computes it.
* The response writer follows `net/http` as it is today: `WriteHeader` checks
  the status code and sends informational responses, `Write` obeys the status,
  the method and the declared length, `http.Error` deletes `Content-Length`.
  A panic ends the handler: what the handlers below do after a call that
  panics is left out of the call sequence.
-/

namespace Funnel

/-! ## `net/http`: headers and response writers -/

/-- The header map of `net/http`: every key is bound to its list of values
(an absent key is bound to the empty list). -/
abbrev Header := String → List String

/-- The header map with no key bound. -/
def Header.empty : Header := fun _ => []

/-- Go `validHeaderFieldByte` of `net/textproto`: the ASCII letters and digits
and the other token characters of a header field name. -/
def validHeaderFieldByte (c : Char) : Bool :=
  c.isAlphanum || "!#$%&'*+-.^_`|~".toList.contains c

/-- The letters of a canonical key: upper case at the start and after every
hyphen, lower case elsewhere (`upper` tells whether the next letter starts a
word). -/
def canonicalChars : Bool → List Char → List Char
  | _, [] => []
  | upper, c :: cs =>
    let c := if upper then c.toUpper else c.toLower
    c :: canonicalChars (c == '-') cs

/-- Go `textproto.CanonicalMIMEHeaderKey`: a key made of valid header field
bytes is brought to canonical form; any other key is returned as it is. -/
def CanonicalMIMEHeaderKey (s : String) : String :=
  if s.toList.all validHeaderFieldByte then String.mk (canonicalChars true s.toList) else s

/-- Go `Header.Set`: the canonical form of the key is bound to the single value,
replacing what was there. -/
def Header.Set (h : Header) (key value : String) : Header :=
  fun k => if k = CanonicalMIMEHeaderKey key then [value] else h k

/-- Go `Header.Add`: the value is appended to the values of the canonical form
of the key. -/
def Header.Add (h : Header) (key value : String) : Header :=
  fun k => if k = CanonicalMIMEHeaderKey key then h k ++ [value] else h k

/-- Go `Header.Del`: the canonical form of the key is unbound. -/
def Header.Del (h : Header) (key : String) : Header :=
  fun k => if k = CanonicalMIMEHeaderKey key then [] else h k

/-- Go `Header.Get`: the first value bound to the canonical form of the key, or
the empty string. -/
def Header.Get (h : Header) (key : String) : String :=
  (h (CanonicalMIMEHeaderKey key)).headD ""

/-- One method call on a `http.ResponseWriter`. -/
inductive WriterCall where
  | headerSet (key value : String)
  | headerAdd (key value : String)
  | headerDel (key : String)
  | WriteHeader (code : Int)
  | Write (data : String)
  deriving DecidableEq, Repr

/-- The header key a call changes, in canonical form, if it is a call on the
header map. -/
def WriterCall.headerKey : WriterCall → Option String
  | .headerSet key _ => some (CanonicalMIMEHeaderKey key)
  | .headerAdd key _ => some (CanonicalMIMEHeaderKey key)
  | .headerDel key => some (CanonicalMIMEHeaderKey key)
  | .WriteHeader _ => none
  | .Write _ => none

/-- A response writer, as the handlers see it: the method of the request it
answers and the calls made on it so far, oldest first. -/
structure ResponseWriter where
  method : String
  calls : List WriterCall
  deriving DecidableEq, Repr

/-- The state `net/http` keeps for a response.
* `method` is the method of the request.
* `header` is the live map returned by `Header()`.
* `wroteHeader`, `status` and `sent` are fixed by the first `WriteHeader` with a
  final status (or by the first `Write`, which implies `WriteHeader(200)`);
  `sent` is the snapshot of the header map taken then.
* `contentLength` is the length declared by the `Content-Length` header at that
  moment and `written` counts the bytes passed to `Write`.
* `body` is the body sent.
* `interim` lists the informational (1xx) responses sent, each with the header
  map it carried.
* `panicked` tells that `WriteHeader` panicked on an invalid status code; the
  handler ends there and no response is completed. -/
structure Response where
  method : String
  header : Header
  wroteHeader : Bool
  status : Int
  sent : Header
  contentLength : Option Nat
  written : Nat
  body : String
  interim : List (Int × Header)
  panicked : Bool

/-- The response before any call. -/
def Response.fresh (method : String) : Response :=
  { method := method, header := Header.empty, wroteHeader := false, status := 0,
    sent := Header.empty, contentLength := none, written := 0, body := "",
    interim := [], panicked := false }

/-- The value of a string of decimal digits; `none` when the string is empty or
holds another character. -/
def parseDigits (ds : List Char) : Option Nat :=
  if ds ≠ [] ∧ ds.all Char.isDigit then
    some (ds.foldl (fun n d => 10 * n + (d.toNat - '0'.toNat)) 0)
  else none

/-- Go `strconv.ParseInt(s, 10, 64)`: an optional sign and decimal digits, within
the range of a 64-bit integer. -/
def ParseInt (s : String) : Option Int :=
  let v : Option Int :=
    match s.toList with
    | '+' :: ds => (parseDigits ds).map Int.ofNat
    | '-' :: ds => (parseDigits ds).map (fun n => - Int.ofNat n)
    | ds => (parseDigits ds).map Int.ofNat
  v.bind (fun n => if -(2 : Int) ^ 63 ≤ n ∧ n < (2 : Int) ^ 63 then some n else none)

/-- Go `checkWriteHeaderCode` panics: the status code has not three digits. -/
def invalidStatusCode (code : Int) : Bool :=
  decide (code < 100) || decide (code > 999)

/-- Go `bodyAllowedForStatus`: no body goes with a 1xx, 204 or 304 status. -/
def bodyAllowedForStatus (status : Int) : Bool :=
  !(decide (100 ≤ status ∧ status ≤ 199) || decide (status = 204) || decide (status = 304))

/-- Whether `response.WriteHeader(code)` panics in the state: the header is not
written yet and the code is invalid. -/
def Response.panics (s : Response) (code : Int) : Bool :=
  !s.wroteHeader && invalidStatusCode code

/-- The part of `response.WriteHeader` that reads the declared `Content-Length`:
a non-negative number is kept as the declared length, anything else is logged
and the header deleted. -/
def Response.readContentLength (s : Response) : Response :=
  let cl := s.header.Get "Content-Length"
  if cl = "" then s
  else
    match ParseInt cl with
    | some v =>
      if 0 ≤ v then { s with contentLength := some v.toNat }
      else { s with header := s.header.Del "Content-Length" }
    | none => { s with header := s.header.Del "Content-Length" }

/-- Go `response.WriteHeader`. Once the header is written a further call is
ignored. An invalid code panics. A 1xx code other than 101 sends an
informational response with the current header map and leaves the final header
unwritten. Any other code fixes the status, takes the snapshot of the header
map and reads the declared `Content-Length`. -/
def Response.WriteHeader (s : Response) (code : Int) : Response :=
  if s.wroteHeader then s
  else if invalidStatusCode code then { s with panicked := true }
  else if 100 ≤ code ∧ code ≤ 199 ∧ code ≠ 101 then
    { s with interim := s.interim ++ [(code, s.header)] }
  else
    Response.readContentLength { s with wroteHeader := true, status := code, sent := s.header }

/-- Go `response.Write`: writes the header with status 200 when it is not
written yet; empty data, data for a status that allows no body and data beyond
the declared `Content-Length` are not sent, and the body of the answer to a
`HEAD` request is dropped. -/
def Response.Write (s : Response) (data : String) : Response :=
  let s := s.WriteHeader 200
  if data = "" then s
  else if !bodyAllowedForStatus s.status then s
  else
    let s := { s with written := s.written + data.utf8ByteSize }
    if (match s.contentLength with
        | some n => decide (s.written > n)
        | none => false) then s
    else if s.method = "HEAD" then s
    else { s with body := s.body ++ data }

/-- The effect of one call on the response state. -/
def Response.apply (s : Response) : WriterCall → Response
  | .headerSet key value => { s with header := s.header.Set key value }
  | .headerAdd key value => { s with header := s.header.Add key value }
  | .headerDel key => { s with header := s.header.Del key }
  | .WriteHeader code => s.WriteHeader code
  | .Write data => s.Write data

/-- The response state after a sequence of calls. -/
def Response.run (s : Response) (calls : List WriterCall) : Response :=
  calls.foldl Response.apply s

/-- What `net/http` holds for the writer. -/
def ResponseWriter.response (w : ResponseWriter) : Response :=
  (Response.fresh w.method).run w.calls

/-- The writer of a new request with the given method. -/
def ResponseWriter.new (method : String) : ResponseWriter := ⟨method, []⟩

/-- Go `w.Header().Set(key, value)`. -/
def ResponseWriter.HeaderSet (w : ResponseWriter) (key value : String) : ResponseWriter :=
  { w with calls := w.calls ++ [.headerSet key value] }

/-- Go `w.Header().Del(key)`. -/
def ResponseWriter.HeaderDel (w : ResponseWriter) (key : String) : ResponseWriter :=
  { w with calls := w.calls ++ [.headerDel key] }

/-- Go `w.WriteHeader(code)`. -/
def ResponseWriter.WriteHeader (w : ResponseWriter) (code : Int) : ResponseWriter :=
  { w with calls := w.calls ++ [.WriteHeader code] }

/-- Go `w.Write(data)`. -/
def ResponseWriter.Write (w : ResponseWriter) (data : String) : ResponseWriter :=
  { w with calls := w.calls ++ [.Write data] }

/-- Go `response.finishRequest`: when the handler returns without having written
a header, the server writes status 200. -/
def ResponseWriter.finishRequest (w : ResponseWriter) : ResponseWriter :=
  if w.response.wroteHeader then w else w.WriteHeader 200

/-! ## `net/http`: requests and handlers -/

/-- The fields of `url.URL` the mux reads. -/
structure URL where
  Path : String
  RawQuery : String
  deriving DecidableEq, Repr

/-- The fields of `http.Request` the mux reads. -/
structure Request where
  Method : String
  RequestURI : String
  URL : URL
  Host : String
  ProtoMajor : Nat
  ProtoMinor : Nat
  deriving DecidableEq, Repr

/-- Go `Request.ProtoAtLeast`. -/
def Request.ProtoAtLeast (r : Request) (major minor : Nat) : Bool :=
  r.ProtoMajor > major || (r.ProtoMajor == major && r.ProtoMinor >= minor)

/-- Handler values. `HandlerFunc f` is a handler supplied from outside (the
gRPC gateway mux, the dashboard file server, a redirect); the other
constructors are the closures built by `http.StripPrefix`, `http.NotFoundHandler`
and `noCacheHandler`, each holding the values it captured. -/
inductive Handler where
  | HandlerFunc (f : ResponseWriter → Request → ResponseWriter)
  | stripPrefixFunc (pfx : String) (h : Handler)
  | NotFoundHandler
  | noCacheHandler (next : Handler)

/-- Go `http.Error`: deletes the `Content-Length` header, sets `Content-Type` and
`X-Content-Type-Options`, writes the status and then the error message
followed by a newline. When `WriteHeader` panics the message is not written. -/
def Error (w : ResponseWriter) (error : String) (code : Int) : ResponseWriter :=
  let w := w.HeaderDel "Content-Length"
  let w := w.HeaderSet "Content-Type" "text/plain; charset=utf-8"
  let w := w.HeaderSet "X-Content-Type-Options" "nosniff"
  if w.response.panics code then w.WriteHeader code
  else
    let w := w.WriteHeader code
    w.Write (error ++ "\n")

/-- Go `http.NotFound`. -/
def NotFound (w : ResponseWriter) (_r : Request) : ResponseWriter :=
  Error w "404 page not found" 404

/-- Go `strings.TrimPrefix`. -/
def TrimPrefix (s pfx : String) : String :=
  if pfx.toList.isPrefixOf s.toList then String.mk (s.toList.drop pfx.length) else s

/-- Go `Handler.ServeHTTP`: the body of each handler.

The `noCacheHandler` case is the closure returned by `noCacheHandler(next)` in
`server/http.go`:
`resp.Header().Set("Cache-Control", "no-store"); next.ServeHTTP(resp, req)`. -/
def Handler.ServeHTTP : Handler → ResponseWriter → Request → ResponseWriter
  | .HandlerFunc f, w, r => f w r
  | .stripPrefixFunc pfx h, w, r =>
    let p := TrimPrefix r.URL.Path pfx
    if p.length < r.URL.Path.length then
      let r2 := { r with URL := { r.URL with Path := p } }
      h.ServeHTTP w r2
    else
      NotFound w r
  | .NotFoundHandler, w, r => NotFound w r
  | .noCacheHandler next, resp, req =>
    let resp := resp.HeaderSet "Cache-Control" "no-store"
    next.ServeHTTP resp req

/-- Go `http.StripPrefix`. -/
def StripPrefix (pfx : String) (h : Handler) : Handler :=
  if pfx = "" then h else .stripPrefixFunc pfx h

/-! ## `net/http`: `ServeMux` -/

/-- Splits a path at every slash. -/
def splitSlash : List Char → List (List Char)
  | [] => [[]]
  | c :: cs =>
    match splitSlash cs with
    | [] => [[c]]
    | seg :: segs => if c = '/' then [] :: seg :: segs else (c :: seg) :: segs

/-- The elements of a rooted path that remain after empty elements and `.` are
dropped and every `..` has removed the element before it (`stack` holds the
elements kept so far, last first). -/
def cleanSegs (stack : List (List Char)) : List (List Char) → List (List Char)
  | [] => stack.reverse
  | seg :: segs =>
    if seg = [] ∨ seg = ['.'] then cleanSegs stack segs
    else if seg = ['.', '.'] then cleanSegs stack.tail segs
    else cleanSegs (seg :: stack) segs

/-- Go `path.Clean` on a rooted path. -/
def pathClean (p : List Char) : List Char :=
  '/' :: List.intercalate ['/'] (cleanSegs [] (splitSlash p))

/-- Go `cleanPath` of `net/http`: the canonical form of a request path. -/
def cleanPath (p : String) : String :=
  if p = "" then "/"
  else
    let p := if p.toList.head? = some '/' then p else "/" ++ p
    let np := String.mk (pathClean p.toList)
    if p.toList.getLast? = some '/' ∧ np ≠ "/" then np ++ "/" else np

/-- Go `pathMatch`: a pattern ending in a slash matches the paths it is a prefix
of; any other pattern matches itself only. -/
def pathMatch (pattern path : String) : Bool :=
  if pattern.length = 0 then false
  else if pattern.toList.getLast? ≠ some '/' then pattern = path
  else pattern.toList.isPrefixOf path.toList

/-- An entry of the mux: the handler and whether it was registered by `Handle`
itself (`explicit`) or is the redirect added for a pattern without its slash. -/
structure muxEntry where
  explicit : Bool
  h : Handler
  pattern : String

/-- Go `http.ServeMux`: the map from registered keys to entries. -/
structure ServeMux where
  m : List (String × muxEntry)

/-- Go `http.NewServeMux`. -/
def NewServeMux : ServeMux := ⟨[]⟩

/-- Assignment `mux.m[key] = e`. -/
def ServeMux.insert (mux : ServeMux) (key : String) (e : muxEntry) : ServeMux :=
  ⟨(key, e) :: mux.m.filter (fun kv => kv.1 ≠ key)⟩

/-- Whether `mux.m[key].explicit` holds. -/
def ServeMux.isExplicit (mux : ServeMux) (key : String) : Bool :=
  match mux.m.lookup key with
  | some e => e.explicit
  | none => false

/-- Go `ServeMux.Handle`. A Go panic (empty or already registered pattern) is the
error case. The redirect for `/tree` added with a pattern `/tree/` is supplied
by the caller as `redirect`, the constructor of `http.RedirectHandler`. -/
def ServeMux.Handle (redirect : String → Int → Handler) (mux : ServeMux)
    (pattern : String) (handler : Handler) : Except String ServeMux :=
  if pattern = "" then .error ("http: invalid pattern " ++ pattern)
  else if mux.isExplicit pattern then .error ("http: multiple registrations for " ++ pattern)
  else
    let mux := mux.insert pattern { explicit := true, h := handler, pattern := pattern }
    let key := String.mk (pattern.toList.take (pattern.length - 1))
    if pattern.toList.getLast? = some '/' ∧ ¬ mux.isExplicit key then
      .ok (mux.insert key { explicit := false, h := redirect pattern 301, pattern := pattern })
    else
      .ok mux

/-- Go `ServeMux.match`: among the keys matching the path the longest wins. -/
def ServeMux.match' (mux : ServeMux) (path : String) : Option muxEntry :=
  (mux.m.foldl
    (fun (best : Option (Nat × muxEntry)) (kv : String × muxEntry) =>
      if pathMatch kv.1 path then
        match best with
        | none => some (kv.1.length, kv.2)
        | some (n, e) => if kv.1.length > n then some (kv.1.length, kv.2) else some (n, e)
      else best)
    none).map (fun ne => ne.2)

/-- Go `ServeMux.handler`, for a mux whose patterns all begin with a slash (no
host-specific pattern). -/
def ServeMux.handler (mux : ServeMux) (path : String) : Handler :=
  match mux.match' path with
  | some e => e.h
  | none => .NotFoundHandler

/-- Go `ServeMux.Handler`: a request whose path is not canonical is answered by a
redirect to the canonical path. -/
def ServeMux.Handler (redirect : String → Int → Handler) (mux : ServeMux)
    (r : Request) : Handler :=
  if r.Method ≠ "CONNECT" ∧ cleanPath r.URL.Path ≠ r.URL.Path then
    redirect (cleanPath r.URL.Path) 301
  else
    mux.handler r.URL.Path

/-- Go `ServeMux.ServeHTTP`. -/
def ServeMux.ServeHTTP (redirect : String → Int → Funnel.Handler) (mux : ServeMux)
    (w : ResponseWriter) (r : Request) : ResponseWriter :=
  if r.RequestURI = "*" then
    let w := if r.ProtoAtLeast 1 1 then w.HeaderSet "Connection" "close" else w
    w.WriteHeader 400
  else
    (mux.Handler redirect r).ServeHTTP w r

/-- The server loop for one request: a new writer, the mux, then
`finishRequest`. When the handler panics the connection is closed and the
response is not completed. -/
def serve (redirect : String → Int → Handler) (mux : ServeMux) (r : Request) : ResponseWriter :=
  let w := mux.ServeHTTP redirect (ResponseWriter.new r.Method) r
  if w.response.panicked then w else w.finishRequest

/-! ## `server/http.go` -/

/-- A value logged with a key. -/
inductive LogValue where
  | str (s : String)
  | url (u : URL)
  deriving DecidableEq, Repr

/-- One record written by `log.Error`. -/
structure LogRecord where
  msg : String
  fields : List (String × LogValue)
  deriving DecidableEq, Repr

/-- The value of the package variable `runtime.OtherErrorHandler` of the gRPC
gateway. -/
inductive ErrorHandlerRef where
  | DefaultOtherErrorHandler
  | handleError
  deriving DecidableEq, Repr

/-- The process state outside the response writer that the functions of
`server/http.go` change: the log, the stack traces printed to standard error
and `runtime.OtherErrorHandler`. -/
structure World where
  log : List LogRecord
  stackTraces : Nat
  OtherErrorHandler : ErrorHandlerRef
  deriving DecidableEq, Repr

/-- Logger call `log.Error`. -/
def World.logError (world : World) (msg : String) (fields : List (String × LogValue)) : World :=
  { world with log := world.log ++ [{ msg := msg, fields := fields }] }

/-- Go `debug.PrintStack`. -/
def World.PrintStack (world : World) : World :=
  { world with stackTraces := world.stackTraces + 1 }

/-- The fields of `config.Config` read by `httpMux`. -/
structure Config where
  DisableHTTPCache : Bool
  RPCAddress : String
  deriving DecidableEq, Repr

/-- What `httpMux` takes from the packages it imports: the gateway mux made by
`runtime.NewServeMux`, the results of the two registration calls for a given
RPC address (`none` is a nil error), the dashboard file server and
`http.RedirectHandler`. -/
structure Lib where
  grpcMux : Handler
  RegisterTaskServiceHandlerFromEndpoint : String → Option String
  RegisterSchedulerHandlerFromEndpoint : String → Option String
  FileServer : Handler
  RedirectHandler : String → Int → Handler

/-- How a call of `httpMux` ends: it returns the mux, returns an error, or
panics inside `mux.Handle`. -/
inductive Outcome (α : Type) where
  | ok (val : α)
  | error (err : String)
  | panic (msg : String)

set_option linter.unusedVariables false in
/-- Function `httpMux` of `server/http.go`. The error of the first registration is
overwritten by that of the second, as in the source. -/
def httpMux (lib : Lib) (conf : Config) (world : World) : World × Outcome ServeMux :=
  let grpcMux := lib.grpcMux
  let world := { world with OtherErrorHandler := .handleError }
  let err := lib.RegisterTaskServiceHandlerFromEndpoint conf.RPCAddress
  let err := lib.RegisterSchedulerHandlerFromEndpoint conf.RPCAddress
  match err with
  | some e => (world.logError "Couldn't register services" [("", .str e)], .error e)
  | none =>
    let fs := lib.FileServer
    let mux := NewServeMux
    match mux.Handle lib.RedirectHandler "/" fs with
    | .error msg => (world, .panic msg)
    | .ok mux =>
    match mux.Handle lib.RedirectHandler "/static/" (StripPrefix "/static/" fs) with
    | .error msg => (world, .panic msg)
    | .ok mux =>
    if conf.DisableHTTPCache then
      match mux.Handle lib.RedirectHandler "/v1/" (.noCacheHandler grpcMux) with
      | .error msg => (world, .panic msg)
      | .ok mux => (world, .ok mux)
    else
      match mux.Handle lib.RedirectHandler "/v1/" grpcMux with
      | .error msg => (world, .panic msg)
      | .ok mux => (world, .ok mux)

/-- What a call of `handleError` leaves behind: the process state, the response
writer and the request. -/
structure HandleErrorResult where
  world : World
  w : ResponseWriter
  req : Request
  deriving DecidableEq, Repr

/-- Function `handleError` of `server/http.go`: logs the error and a stack trace and
answers with `http.Error`. -/
def handleError (world : World) (w : ResponseWriter) (req : Request) (err : String)
    (code : Int) : HandleErrorResult :=
  let world := world.logError "HTTP handler error" [("error", .str err), ("url", .url req.URL)]
  let world := world.PrintStack
  let w := Error w err code
  { world := world, w := w, req := req }

/-- A handler makes calls on the writer it is given and none of them changes
the header key. -/
def Handler.LeavesHeader (h : Handler) (key : String) : Prop :=
  ∀ (w : ResponseWriter) (r : Request), ∃ cs : List WriterCall,
    (h.ServeHTTP w r).calls = w.calls ++ cs ∧ ∀ c ∈ cs, c.headerKey ≠ some key

/-- The handler `httpMux` registers for `/v1/`. -/
def v1Handler (lib : Lib) (conf : Config) : Handler :=
  if conf.DisableHTTPCache then .noCacheHandler lib.grpcMux else lib.grpcMux

/-- The mux after the three registrations of `httpMux`. -/
def httpMuxEntries (lib : Lib) (conf : Config) : List (String × muxEntry) :=
      [("/v1", ⟨false, lib.RedirectHandler "/v1/" 301, "/v1/"⟩),
       ("/v1/", ⟨true, v1Handler lib conf, "/v1/"⟩),
       ("/static", ⟨false, lib.RedirectHandler "/static/" 301, "/static/"⟩),
       ("/static/", ⟨true, StripPrefix "/static/" lib.FileServer, "/static/"⟩),
       ("", ⟨false, lib.RedirectHandler "/" 301, "/"⟩),
       ("/", ⟨true, lib.FileServer, "/"⟩)]

/-! ## Storage backends

The storage, worker and scheduler packages are missing from the embedded
sources, where only their end-to-end tests are present; the definitions of this
and the next two sections follow the design document. A transfer reports
success only when it is complete; a failed transfer reports its error together
with the destination as the failure left it. Transfers of different inputs or
outputs of a task do not interleave with each other; their order is chosen by
the environment. -/

/-- Modelled from the spec: the type of an Input or Output, `FILE` or
`DIRECTORY` (`tes.FileType`, of the missing `proto/tes` package). -/
inductive FileType where
  | FILE
  | DIRECTORY
  deriving DecidableEq, Repr

/-- Modelled from the spec: a local path or an object key, as the list of its
elements (the storage package, which parses them, is missing). -/
abbrev Path := List String

/-- Modelled from the spec: a set of files, each a path with its content; the
first binding of a path is its content. It stands for the local file system of
a worker and for the objects held behind the storage backends, both missing
from the sources. -/
abbrev Files := List (Path × String)

/-- Modelled from the spec: a storage URL `scheme://key` of the URL scheme
convention (`s3://bucket/key`, `file://`, `http(s)://host/path`); URL parsing
is in the missing storage package. -/
structure StorageURL where
  scheme : String
  key : Path
  deriving DecidableEq, Repr

/-- Modelled from the spec: the place of a URL among all stored objects, the
scheme followed by the key (missing storage package). -/
def StorageURL.addr (u : StorageURL) : Path := u.scheme :: u.key

/-- Modelled from the spec: the relative paths that a transfer of the given type
carries (missing storage package): the path itself for a `FILE`, every path
strictly below it for a `DIRECTORY`. -/
def FileType.covers : FileType → Path → Prop
  | .FILE, rel => rel = []
  | .DIRECTORY, rel => rel ≠ []

instance (type : FileType) (rel : Path) : Decidable (type.covers rel) := by
  cases type <;> unfold FileType.covers <;> infer_instance

/-- Modelled from the spec: the recursive transfer of an entire tree,
preserving relative paths (missing storage package): every file strictly below
`src` is bound at the same relative path below `dst`. -/
def copyTree (src dst : Path) (files : Files) : Files :=
  files.filterMap (fun pc =>
    if src <+: pc.1 ∧ pc.1 ≠ src then some (dst ++ pc.1.drop src.length, pc.2) else none)

/-- Modelled from the spec: what a transferred tree replaces (missing storage
package): everything at or below `dir` is removed, so that after `put` followed
by `get` the destination is byte-identical to the source, as the round-trip
property of the spec demands. -/
def removeTree (dir : Path) (files : Files) : Files :=
  files.filter (fun pc => ¬ dir <+: pc.1)

/-- Modelled from the spec: the errors of staging (missing storage package). -/
inductive StorageError where
  | UnsupportedStorageError
  | UnsupportedOperationError
  | StagingError
  deriving DecidableEq, Repr

/-- Modelled from the spec: what a failed transfer reports (missing storage
package): the error, and the destination in the state the failure left it. -/
structure StagingFailure where
  error : StorageError
  left : Files
  deriving DecidableEq, Repr

/-- Modelled from the spec: a network or permission failure during a transfer
(missing storage package): the fault `some n` breaks a transfer of more than
`n` files after `n` of them; `none` is a transfer without failure. -/
def faultHits (fault : Option Nat) (count : Nat) : Bool :=
  match fault with
  | some n => decide (n < count)
  | none => false

/-- Modelled from the spec: a concrete storage backend (missing storage
package), selected by URL scheme; a read-only protocol such as plain HTTP
implements `get` only. -/
structure Backend where
  name : String
  schemes : List String
  readOnly : Bool
  deriving DecidableEq, Repr

/-- Modelled from the spec: `supports(url)`, scheme matching only (missing
storage package). -/
def Backend.supports (b : Backend) (url : StorageURL) : Bool :=
  b.schemes.contains url.scheme

/-- Modelled from the spec: `put(destinationURL, sourceLocalPath, type)` of a
storage backend (missing storage package). A URL of another scheme is not
supported; a read-only backend fails with `UnsupportedOperationError`; a local
file or directory that does not exist, and a network or permission failure,
give a `StagingError`. A successful `put` replaces what was stored at the URL:
the error taxonomy has no error for an existing destination and the round trip
must return the tree just put. The result is the new set of stored objects. -/
def Backend.put (b : Backend) (fault : Option Nat) (remote fs : Files) (url : StorageURL)
    (path : Path) (type : FileType) : Except StagingFailure Files :=
  if !b.supports url then .error ⟨.UnsupportedStorageError, remote⟩
  else if b.readOnly then .error ⟨.UnsupportedOperationError, remote⟩
  else
    match type with
    | .FILE =>
      match fs.lookup path with
      | none => .error ⟨.StagingError, remote⟩
      | some content =>
        if faultHits fault 1 then .error ⟨.StagingError, remote⟩
        else .ok ((url.addr, content) :: remote)
    | .DIRECTORY =>
      let tree := copyTree path url.addr fs
      if tree.isEmpty then .error ⟨.StagingError, remote⟩
      else if faultHits fault tree.length then
        .error ⟨.StagingError, tree.take (fault.getD 0) ++ remote⟩
      else .ok (tree ++ removeTree url.addr remote)

/-- Modelled from the spec: `get(sourceURL, destinationLocalPath, type)` of a
storage backend (missing storage package). A URL of another scheme is not
supported; a key under which nothing is stored, and a network or permission
failure, give a `StagingError`. A successful `get` replaces what was at the
local path. The result is the new local file system. -/
def Backend.get (b : Backend) (fault : Option Nat) (remote fs : Files) (url : StorageURL)
    (path : Path) (type : FileType) : Except StagingFailure Files :=
  if !b.supports url then .error ⟨.UnsupportedStorageError, fs⟩
  else
    match type with
    | .FILE =>
      match remote.lookup url.addr with
      | none => .error ⟨.StagingError, fs⟩
      | some content =>
        if faultHits fault 1 then .error ⟨.StagingError, fs⟩
        else .ok ((path, content) :: fs)
    | .DIRECTORY =>
      let tree := copyTree url.addr path remote
      if tree.isEmpty then .error ⟨.StagingError, fs⟩
      else if faultHits fault tree.length then
        .error ⟨.StagingError, tree.take (fault.getD 0) ++ fs⟩
      else .ok (tree ++ removeTree path fs)

/-- Modelled from the spec: the backend registry (missing storage package), in
registration order. -/
abbrev Storage := List Backend

/-- Modelled from the spec: the registry resolves a URL to the first backend
whose `supports` returns true (missing storage package). -/
def Storage.resolve (storage : Storage) (url : StorageURL) : Option Backend :=
  storage.find? (fun b => b.supports url)

/-- Modelled from the spec: `Put` through the registry (`storage.Put`, missing);
without a matching backend staging fails with `UnsupportedStorageError`. -/
def Storage.Put (storage : Storage) (fault : Option Nat) (remote fs : Files) (url : StorageURL)
    (path : Path) (type : FileType) : Except StagingFailure Files :=
  match storage.resolve url with
  | none => .error ⟨.UnsupportedStorageError, remote⟩
  | some b => b.put fault remote fs url path type

/-- Modelled from the spec: `Get` through the registry (`storage.Get`, missing). -/
def Storage.Get (storage : Storage) (fault : Option Nat) (remote fs : Files) (url : StorageURL)
    (path : Path) (type : FileType) : Except StagingFailure Files :=
  match storage.resolve url with
  | none => .error ⟨.UnsupportedStorageError, fs⟩
  | some b => b.get fault remote fs url path type

/-! ## Tasks and the worker -/

/-- Modelled from the spec: the task states (`tes.State`, of the missing `proto/tes` package). -/
inductive State where
  | QUEUED
  | INITIALIZING
  | RUNNING
  | COMPLETE
  | ERROR
  | SYSTEM_ERROR
  | CANCELED
  deriving DecidableEq, Repr

/-- Modelled from the spec: an executor step (`tes.Executor`, of the missing `proto/tes` package). -/
structure Executor where
  Image : String
  Command : List String
  Workdir : Path
  deriving DecidableEq, Repr

/-- Modelled from the spec: an Input, a (URL, local path, type) triple
(`tes.Input`, of the missing `proto/tes` package). -/
structure Input where
  Url : StorageURL
  Path : Path
  Type_ : FileType
  deriving DecidableEq, Repr

/-- Modelled from the spec: an Output, a (URL, local path, type) triple
(`tes.Output`, of the missing `proto/tes` package). -/
structure Output where
  Url : StorageURL
  Path : Path
  Type_ : FileType
  deriving DecidableEq, Repr

/-- Modelled from the spec: a resource request or a free capacity: CPU cores,
RAM bytes, disk bytes and named volumes (`tes.Resources`, of the missing `proto/tes` package). -/
structure Resources where
  CpuCores : Nat
  Ram : Nat
  Disk : Nat
  Volumes : List String
  deriving DecidableEq, Repr

/-- Modelled from the spec: the log of one executor step (`tes.ExecutorLog`,
of the missing `proto/tes` package). -/
structure ExecutorLog where
  ExitCode : Int
  Stdout : String
  Stderr : String
  deriving DecidableEq, Repr

/-- Modelled from the spec: the record of one scheduling attempt (`tes.TaskLog`,
of the missing `proto/tes` package). -/
structure TaskLog where
  Logs : List ExecutorLog
  deriving DecidableEq, Repr

/-- Modelled from the spec: a task (`tes.Task`, of the missing `proto/tes` package). -/
structure Task where
  Name : String
  Inputs : List Input
  Outputs : List Output
  Executors : List Executor
  Resources : Resources
  State : State
  Logs : List TaskLog
  deriving DecidableEq, Repr

/-- Modelled from the spec: the executor runner, the capability that runs one
step on the local file system and returns the file system it leaves and the
step's log (the worker package is missing). -/
abbrev Runner := Executor → Files → Files × ExecutorLog

/-- Modelled from the spec: what the environment decides about the staging of
one attempt (the worker package is missing): the network or permission failure
met by the `get` and by the `put` at each URL, and the order in which the
inputs and the outputs, which may be staged concurrently, are transferred
(lower rank first, declared order among equal ranks). -/
structure StagingEnv where
  getFault : StorageURL → Option Nat
  putFault : StorageURL → Option Nat
  inputRank : Input → Nat
  outputRank : Output → Nat

/-- Modelled from the spec: the order in which the inputs are staged (missing
worker package). -/
def orderInputs (env : StagingEnv) (inputs : List Input) : List Input :=
  inputs.insertionSort (fun a b => env.inputRank a ≤ env.inputRank b)

/-- Modelled from the spec: the order in which the outputs are staged (missing
worker package). -/
def orderOutputs (env : StagingEnv) (outputs : List Output) : List Output :=
  outputs.insertionSort (fun a b => env.outputRank a ≤ env.outputRank b)

/-- Modelled from the spec: `create(spec)` (missing task service): every Input
and Output URL must resolve to a registered backend and every executor must
have a command; the new task is `QUEUED` with no TaskLog. `none` is a
`ValidationError`. -/
def create (storage : Storage) (spec : Task) : Option Task :=
  if spec.Inputs.all (fun i => (storage.resolve i.Url).isSome)
      ∧ spec.Outputs.all (fun o => (storage.resolve o.Url).isSome)
      ∧ spec.Executors.all (fun e => e.Command ≠ []) then
    some { spec with State := .QUEUED, Logs := [] }
  else none

/-- Modelled from the spec: input staging of the worker (missing worker
package): each Input is fetched with `get` to its local path; the first
failure aborts. -/
def stageInputs (storage : Storage) (env : StagingEnv) (remote : Files) :
    List Input → Files → Except StagingFailure Files
  | [], fs => .ok fs
  | i :: rest, fs =>
    match storage.Get (env.getFault i.Url) remote fs i.Url i.Path i.Type_ with
    | .error e => .error e
    | .ok fs => stageInputs storage env remote rest fs

/-- Modelled from the spec: the executors are run strictly in declared order,
each step giving an ExecutorLog; after a nonzero exit code the remaining steps
are skipped (missing worker package). The result is the file system left, the
logs, and whether every step exited with code 0. -/
def runExecutors (run : Runner) : List Executor → Files → Files × List ExecutorLog × Bool
  | [], fs => (fs, [], true)
  | e :: rest, fs =>
    let out := run e fs
    if out.2.ExitCode ≠ 0 then (out.1, [out.2], false)
    else
      let r := runExecutors run rest out.1
      (r.1, out.2 :: r.2.1, r.2.2)

/-- Modelled from the spec: output staging of the worker (missing worker
package): each Output is stored with `put` from its local path; the first
failure aborts. -/
def stageOutputs (storage : Storage) (env : StagingEnv) (fs : Files) :
    List Output → Files → Except StagingFailure Files
  | [], remote => .ok remote
  | o :: rest, remote =>
    match storage.Put (env.putFault o.Url) remote fs o.Url o.Path o.Type_ with
    | .error e => .error e
    | .ok remote => stageOutputs storage env fs rest remote

/-- Modelled from the spec: what one attempt of the worker leaves (missing
worker package): the outcome, the TaskLog, the local file system and the
stored objects. -/
structure Attempt where
  state : State
  log : TaskLog
  fs : Files
  remote : Files
  deriving DecidableEq, Repr

/-- Modelled from the spec: the worker contract of one scheduling attempt
(missing worker package): stage the inputs (a failure gives `SYSTEM_ERROR`
and no executor is started), run the executors in order (a nonzero exit gives
`ERROR`), stage the outputs (a failure gives `SYSTEM_ERROR`), else `COMPLETE`. -/
def Worker.run (storage : Storage) (run : Runner) (env : StagingEnv) (task : Task)
    (fs remote : Files) : Attempt :=
  match stageInputs storage env remote (orderInputs env task.Inputs) fs with
  | .error e => { state := .SYSTEM_ERROR, log := ⟨[]⟩, fs := e.left, remote := remote }
  | .ok fs =>
    let r := runExecutors run task.Executors fs
    if r.2.2 then
      match stageOutputs storage env r.1 (orderOutputs env task.Outputs) remote with
      | .error e => { state := .SYSTEM_ERROR, log := ⟨r.2.1⟩, fs := r.1, remote := e.left }
      | .ok remote => { state := .COMPLETE, log := ⟨r.2.1⟩, fs := r.1, remote := remote }
    else { state := .ERROR, log := ⟨r.2.1⟩, fs := r.1, remote := remote }

/-- Modelled from the spec: the task after an attempt (missing scheduler): the
attempt's TaskLog is appended and its outcome is the task's state. -/
def Task.finish (task : Task) (a : Attempt) : Task :=
  { task with State := a.state, Logs := task.Logs ++ [a.log] }

/-- Modelled from the spec: two outputs whose URLs do not overlap, neither
place being below or equal to the other (no counterpart in the sources). -/
def Output.Apart (a b : Output) : Prop :=
  ¬ a.Url.addr <+: b.Url.addr ∧ ¬ b.Url.addr <+: a.Url.addr

instance (a b : Output) : Decidable (Output.Apart a b) := by
  unfold Output.Apart
  infer_instance

/-! ## Scheduler -/

/-- Modelled from the spec: a compute backend adapter with its free capacity in
the capacity ledger (missing scheduler package). -/
structure Adapter where
  name : String
  free : Resources
  deriving DecidableEq, Repr

/-- Modelled from the spec: the eligibility filter of the scheduler (missing
scheduler package): free CPU, RAM and disk are at least the request and every
requested volume is offered. -/
def Resources.fits (request free : Resources) : Bool :=
  decide (request.CpuCores ≤ free.CpuCores) && decide (request.Ram ≤ free.Ram)
    && decide (request.Disk ≤ free.Disk) && request.Volumes.all (fun v => free.Volumes.contains v)

/-- Modelled from the spec: assignment of a task to an adapter (missing
scheduler package): an eligible adapter's free capacity is lowered by the
request; an adapter that is not eligible is not assigned to. -/
def Adapter.assign (a : Adapter) (request : Resources) : Option Adapter :=
  if request.fits a.free then
    some { a with free := { a.free with CpuCores := a.free.CpuCores - request.CpuCores,
                                         Ram := a.free.Ram - request.Ram,
                                         Disk := a.free.Disk - request.Disk } }
  else none

/-- Modelled from the spec: the scheduler releases the capacity of an attempt
when the worker reports its terminal outcome (missing scheduler package). -/
def Adapter.release (a : Adapter) (request : Resources) : Adapter :=
  { a with free := { a.free with CpuCores := a.free.CpuCores + request.CpuCores,
                                       Ram := a.free.Ram + request.Ram,
                                       Disk := a.free.Disk + request.Disk } }

/-- Modelled from the spec: what one scheduling decision leaves (missing
scheduler package): the adapter after the assignment, while the attempt runs;
the task after the attempt; the adapter after the capacity is released. -/
structure Dispatch where
  assigned : Adapter
  task : Task
  released : Adapter
  deriving DecidableEq, Repr

/-- Modelled from the spec: one scheduling decision for a task and an adapter
(missing scheduler package). Only a `QUEUED` task is scheduled. When the
adapter is eligible the task is assigned, the worker runs one attempt and the
capacity is released on its terminal outcome; otherwise the task stays
`QUEUED` for the next scheduling pass. -/
def Scheduler.dispatch (storage : Storage) (run : Runner) (env : StagingEnv) (a : Adapter)
    (task : Task) (fs remote : Files) : Option Dispatch :=
  if task.State ≠ .QUEUED then none
  else
    match a.assign task.Resources with
    | none => none
    | some assigned =>
      some { assigned := assigned,
             task := task.finish (Worker.run storage run env task fs remote),
             released := assigned.release task.Resources }

/-- What `stageOutputs` guarantees for one output: its backend is registered,
what is stored under its URL is what the local path holds, and something is
stored there. -/
def Output.Stored (fs remote : Files) (storage : Storage) (o : Output) : Prop :=
  (∃ b, storage.resolve o.Url = some b)
  ∧ (∀ rel, o.Type_.covers rel → remote.lookup (o.Url.addr ++ rel) = fs.lookup (o.Path ++ rel))
  ∧ (∃ rel c, o.Type_.covers rel ∧ fs.lookup (o.Path ++ rel) = some c)

/-! ## Example values for the HTTP mux -/

/-- A gateway that answers every request with status 200 and the body `{}`. -/
def exampleGateway : Handler :=
  .HandlerFunc (fun w _ => (w.WriteHeader 200).Write "\x7b\x7d")

/-- A gateway that sets its own caching policy, spelling the key in lower case. -/
def overridingGateway : Handler :=
  .HandlerFunc (fun w _ => (w.HeaderSet "cache-control" "public, max-age=3600").WriteHeader 200)

/-- A gateway that calls `WriteHeader` with the invalid status code 0. -/
def panickingGateway : Handler :=
  .HandlerFunc (fun w _ => w.WriteHeader 0)

/-- Imports whose registrations succeed. -/
def exampleLib : Lib :=
  { grpcMux := exampleGateway
    RegisterTaskServiceHandlerFromEndpoint := fun _ => none
    RegisterSchedulerHandlerFromEndpoint := fun _ => none
    FileServer := .NotFoundHandler
    RedirectHandler := fun url code =>
      .HandlerFunc (fun w _ => (w.HeaderSet "Location" url).WriteHeader code) }

/-- The process state at start-up. -/
def exampleWorld : World :=
  { log := [], stackTraces := 0, OtherErrorHandler := .DefaultOtherErrorHandler }

/-- The request `GET /v1/tasks`. -/
def exampleRequest : Request :=
  { Method := "GET", RequestURI := "/v1/tasks", URL := { Path := "/v1/tasks", RawQuery := "" },
    Host := "localhost:8000", ProtoMajor := 1, ProtoMinor := 1 }

/-! ## Example values for storage, worker and scheduler -/

/-- The generic S3 backend of the end-to-end test. -/
def exampleS3 : Backend := { name := "generic-s3", schemes := ["s3"], readOnly := false }

/-- A read-only HTTP backend. -/
def exampleHTTP : Backend := { name := "http", schemes := ["http", "https"], readOnly := true }

/-- A registry with both backends. -/
def exampleStorage : Storage := [exampleS3, exampleHTTP]

/-- The test data of the storage test: the file `testdata/test_in` and the
directory `testdata/test_dir` with two files (their names are chosen here). -/
def testdata : Files :=
  [(["testdata", "test_in"], "hello\n"),
   (["testdata", "test_dir", "file1"], "file1 content\n"),
   (["testdata", "test_dir", "file2"], "file2 content\n")]

/-- The URL `s3://funnel-e2e-tests/` followed by the key. -/
def bucketURL (key : Path) : StorageURL := { scheme := "s3", key := "funnel-e2e-tests" :: key }

/-- The objects stored after the two uploads of the storage test. -/
def uploaded : Files :=
  [((bucketURL ["testdata", "test_dir", "file1"]).addr, "file1 content\n"),
   ((bucketURL ["testdata", "test_dir", "file2"]).addr, "file2 content\n"),
   ((bucketURL ["testdata", "test_in"]).addr, "hello\n")]

/-- An environment without failures that stages in declared order. -/
def calmEnv : StagingEnv :=
  { getFault := fun _ => none, putFault := fun _ => none,
    inputRank := fun _ => 0, outputRank := fun _ => 0 }

/-- An environment without failures that stages the output of the given local
path after the others. -/
def lateEnv (late : Path) : StagingEnv :=
  { getFault := fun _ => none, putFault := fun _ => none,
    inputRank := fun _ => 0, outputRank := fun o => if o.Path = late then 1 else 0 }

/-- The script of the executor of the storage test. -/
def catScript : String :=
  "cat $(find /opt/inputs -type f | sort) > test-output-file.txt; mkdir test-output-directory; cp *.txt test-output-directory/"

/-- A runner for the commands of the tests: the script of the storage test
concatenates the staged inputs into `test-output-file.txt` and copies it into
`test-output-directory`; `echo A > a; echo B > b` writes the two files;
`mkdir out; echo A > out/x; echo B > b` writes a directory and a file; any
other `echo` writes its arguments and a newline to standard output; any other
command exits with code 127. -/
def exampleRunner : Runner := fun e fs =>
  match e.Command with
  | ["sh", "-c", script] =>
    if script = catScript then
      let content := String.join
        ([["opt", "inputs", "test-directory", "file1"], ["opt", "inputs", "test-directory", "file2"],
          ["opt", "inputs", "test-file.txt"]].filterMap (fun p => fs.lookup p))
      ((e.Workdir ++ ["test-output-file.txt"], content)
        :: (e.Workdir ++ ["test-output-directory", "test-output-file.txt"], content) :: fs,
       { ExitCode := 0, Stdout := "", Stderr := "" })
    else if script = "echo A > a; echo B > b" then
      ((e.Workdir ++ ["a"], "A\n") :: (e.Workdir ++ ["b"], "B\n") :: fs,
       { ExitCode := 0, Stdout := "", Stderr := "" })
    else if script = "mkdir out; echo A > out/x; echo B > b" then
      ((e.Workdir ++ ["out", "x"], "A\n") :: (e.Workdir ++ ["b"], "B\n") :: fs,
       { ExitCode := 0, Stdout := "", Stderr := "" })
    else if "echo ".toList.isPrefixOf script.toList then
      (fs, { ExitCode := 0, Stdout := String.mk (script.toList.drop 5) ++ "\n", Stderr := "" })
    else (fs, { ExitCode := 127, Stdout := "", Stderr := "" })
  | _ => (fs, { ExitCode := 127, Stdout := "", Stderr := "" })

/-- A task specification with one shell command and no inputs or outputs, as
made by `funnel run --sh`. -/
def shTask (script : String) (request : Resources) : Task :=
  { Name := "", Inputs := [], Outputs := [],
    Executors := [{ Image := "alpine", Command := ["sh", "-c", script], Workdir := [] }],
    Resources := request, State := .QUEUED, Logs := [] }

/-- The task of the storage test. -/
def s3Task : Task :=
  { Name := "s3 e2e",
    Inputs := [{ Url := bucketURL ["testdata", "test_in"], Path := ["opt", "inputs", "test-file.txt"],
                 Type_ := .FILE },
               { Url := bucketURL ["testdata", "test_dir"], Path := ["opt", "inputs", "test-directory"],
                 Type_ := .DIRECTORY }],
    Outputs := [{ Path := ["opt", "workdir", "test-output-file.txt"],
                  Url := bucketURL ["test-output-file.txt"], Type_ := .FILE },
                { Path := ["opt", "workdir", "test-output-directory"],
                  Url := bucketURL ["test-output-directory"], Type_ := .DIRECTORY }],
    Executors := [{ Image := "alpine:latest", Command := ["sh", "-c", catScript],
                    Workdir := ["opt", "workdir"] }],
    Resources := { CpuCores := 0, Ram := 0, Disk := 0, Volumes := [] },
    State := .QUEUED, Logs := [] }

/-- A task whose two `FILE` outputs are stored at the same URL. -/
def clashTask : Task :=
  { Name := "clash", Inputs := [],
    Outputs := [{ Path := ["work", "a"], Url := bucketURL ["out"], Type_ := .FILE },
                { Path := ["work", "b"], Url := bucketURL ["out"], Type_ := .FILE }],
    Executors := [{ Image := "alpine:latest", Command := ["sh", "-c", "echo A > a; echo B > b"],
                    Workdir := ["work"] }],
    Resources := { CpuCores := 0, Ram := 0, Disk := 0, Volumes := [] },
    State := .QUEUED, Logs := [] }

/-- A task with a `DIRECTORY` output and a `FILE` output stored below its URL. -/
def nestedTask : Task :=
  { Name := "nested", Inputs := [],
    Outputs := [{ Path := ["work", "out"], Url := bucketURL ["out"], Type_ := .DIRECTORY },
                { Path := ["work", "b"], Url := bucketURL ["out", "x"], Type_ := .FILE }],
    Executors := [{ Image := "alpine:latest",
                    Command := ["sh", "-c", "mkdir out; echo A > out/x; echo B > b"],
                    Workdir := ["work"] }],
    Resources := { CpuCores := 0, Ram := 0, Disk := 0, Volumes := [] },
    State := .QUEUED, Logs := [] }

/-- The adapter of Scenario B, with free capacity CPU=4, RAM=8, Disk=20. -/
def exampleAdapter : Adapter :=
  { name := "pbs", free := { CpuCores := 4, Ram := 8, Disk := 20, Volumes := [] } }

/-- The task of Scenario B with an input at a key under which nothing is stored. -/
def badInputTask : Task :=
  { shTask "echo I need resources!" ⟨1, 2, 5, []⟩ with
    Inputs := [{ Url := bucketURL ["missing"], Path := ["opt", "inputs", "in"], Type_ := .FILE }] }

/-- The task of Scenario B without executors. -/
def idleTask : Task :=
  { shTask "echo I need resources!" ⟨1, 2, 5, []⟩ with Executors := [] }

/-- The task of Scenario B, queued again after an attempt that failed before any
executor ran. -/
def requeuedTask : Task :=
  { shTask "echo I need resources!" ⟨1, 2, 5, []⟩ with Logs := [⟨[]⟩] }

/-- The task of Scenario B after it was canceled. -/
def canceledTask : Task :=
  { shTask "echo I need resources!" ⟨1, 2, 5, []⟩ with State := .CANCELED }

/-! # Theorems -/

/-! ## Header keys and response writer lemmas -/

theorem canonical_Cache_Control : CanonicalMIMEHeaderKey "Cache-Control" = "Cache-Control" := by
  decide

theorem canonical_Content_Length : CanonicalMIMEHeaderKey "Content-Length" = "Content-Length" := by
  decide

theorem canonical_Content_Type : CanonicalMIMEHeaderKey "Content-Type" = "Content-Type" := by
  decide

theorem canonical_X_Content_Type_Options :
    CanonicalMIMEHeaderKey "X-Content-Type-Options" = "X-Content-Type-Options" := by
  decide

theorem Response.run_append (s : Response) (a b : List WriterCall) :
    s.run (a ++ b) = (s.run a).run b := by
  simp [Response.run, List.foldl_append]

theorem ResponseWriter.response_HeaderSet (w : ResponseWriter) (key value : String) :
    (w.HeaderSet key value).response = w.response.apply (.headerSet key value) := by
  simp [ResponseWriter.response, ResponseWriter.HeaderSet, Response.run, List.foldl_append]

theorem ResponseWriter.response_HeaderDel (w : ResponseWriter) (key : String) :
    (w.HeaderDel key).response = w.response.apply (.headerDel key) := by
  simp [ResponseWriter.response, ResponseWriter.HeaderDel, Response.run, List.foldl_append]

theorem ResponseWriter.response_WriteHeader (w : ResponseWriter) (code : Int) :
    (w.WriteHeader code).response = w.response.WriteHeader code := by
  simp [ResponseWriter.response, ResponseWriter.WriteHeader, Response.run, List.foldl_append,
    Response.apply]

theorem ResponseWriter.response_Write (w : ResponseWriter) (data : String) :
    (w.Write data).response = w.response.Write data := by
  simp [ResponseWriter.response, ResponseWriter.Write, Response.run, List.foldl_append,
    Response.apply]

/-! ## `noCacheHandler` -/

/-- C2. For every handler `next`, writer and request, the handler returned by
`noCacheHandler(next)` makes exactly one call of its own on the writer, namely
`Header().Set("Cache-Control", "no-store")`, and its result is that of
`next.ServeHTTP` on the writer so obtained and the same request. After that
call the key `Cache-Control` is bound to the single value `no-store`, every
other key is bound as before, and status, sent header and body are as before. -/
theorem noCacheHandler_sets_no_store_then_delegates (next : Handler) (resp : ResponseWriter)
    (req : Request) :
    (Handler.noCacheHandler next).ServeHTTP resp req
        = next.ServeHTTP (resp.HeaderSet "Cache-Control" "no-store") req
    ∧ (resp.HeaderSet "Cache-Control" "no-store").calls
        = resp.calls ++ [WriterCall.headerSet "Cache-Control" "no-store"]
    ∧ (resp.HeaderSet "Cache-Control" "no-store").response.header "Cache-Control" = ["no-store"]
    ∧ (∀ key, key ≠ "Cache-Control" →
        (resp.HeaderSet "Cache-Control" "no-store").response.header key
          = resp.response.header key)
    ∧ (resp.HeaderSet "Cache-Control" "no-store").response.wroteHeader
        = resp.response.wroteHeader
    ∧ (resp.HeaderSet "Cache-Control" "no-store").response.status = resp.response.status
    ∧ (resp.HeaderSet "Cache-Control" "no-store").response.sent = resp.response.sent
    ∧ (resp.HeaderSet "Cache-Control" "no-store").response.body = resp.response.body := by
  refine ⟨by simp [Handler.ServeHTTP], rfl, ?_, ?_, ?_, ?_, ?_, ?_⟩
  · simp [ResponseWriter.response_HeaderSet, Response.apply, Header.Set, canonical_Cache_Control]
  · intro key hkey
    simp [ResponseWriter.response_HeaderSet, Response.apply, Header.Set, canonical_Cache_Control,
      hkey]
  all_goals simp [ResponseWriter.response_HeaderSet, Response.apply]

/-! ## The response state -/

theorem Response.readContentLength_fields (s : Response) :
    s.readContentLength.method = s.method
    ∧ s.readContentLength.wroteHeader = s.wroteHeader
    ∧ s.readContentLength.status = s.status
    ∧ s.readContentLength.sent = s.sent
    ∧ s.readContentLength.written = s.written
    ∧ s.readContentLength.body = s.body
    ∧ s.readContentLength.interim = s.interim
    ∧ s.readContentLength.panicked = s.panicked
    ∧ (∀ key, key ≠ "Content-Length" → s.readContentLength.header key = s.header key)
    ∧ (s.header "Content-Length" = [] → s.readContentLength = s) := by
  unfold Response.readContentLength
  simp only []
  split
  · simp
  · refine ⟨?_, ?_, ?_, ?_, ?_, ?_, ?_, ?_, ?_, ?_⟩
    all_goals first
      | (split <;> (try split) <;> rfl)
      | skip
    · intro key hkey
      split <;> (try split) <;> simp [Header.Del, canonical_Content_Length, hkey]
    · intro hnil
      rename_i hne
      exact absurd (by simp [Header.Get, canonical_Content_Length, hnil]) hne

theorem Response.WriteHeader_written (s : Response) (code : Int) (hw : s.wroteHeader = true) :
    s.WriteHeader code = s := by
  simp [Response.WriteHeader, hw]

theorem Response.WriteHeader_final (s : Response) (code : Int) (hw : s.wroteHeader = false)
    (hvalid : invalidStatusCode code = false)
    (hfinal : ¬ (100 ≤ code ∧ code ≤ 199 ∧ code ≠ 101)) :
    s.WriteHeader code
      = Response.readContentLength { s with wroteHeader := true, status := code, sent := s.header } := by
  simp only [Response.WriteHeader, hw, hvalid, Bool.false_eq_true, if_false, hfinal]

theorem Response.WriteHeader_200 (s : Response) (hw : s.wroteHeader = false) :
    s.WriteHeader 200
      = Response.readContentLength { s with wroteHeader := true, status := 200, sent := s.header } :=
  Response.WriteHeader_final s 200 hw (by decide) (by decide)

theorem Response.WriteHeader_200_wrote (s : Response) : (s.WriteHeader 200).wroteHeader = true := by
  by_cases hw : s.wroteHeader = true
  · rw [Response.WriteHeader_written s 200 hw, hw]
  · have hw' : s.wroteHeader = false := by simpa using hw
    rw [Response.WriteHeader_200 s hw', (Response.readContentLength_fields _).2.1]

theorem Response.Write_wrote (s : Response) (data : String) :
    (s.Write data).wroteHeader = true := by
  have h := Response.WriteHeader_200_wrote s
  unfold Response.Write
  simp only []
  split
  · exact h
  · split
    · exact h
    · split
      · exact h
      · split <;> exact h

theorem Response.Write_method (s : Response) (data : String) :
    (s.Write data).method = (s.WriteHeader 200).method := by
  unfold Response.Write
  simp only []
  split
  · rfl
  · split
    · rfl
    · split
      · rfl
      · split <;> rfl

theorem Response.WriteHeader_method (s : Response) (code : Int) :
    (s.WriteHeader code).method = s.method := by
  unfold Response.WriteHeader
  split
  · rfl
  · split
    · rfl
    · split
      · rfl
      · exact (Response.readContentLength_fields _).1

/-- While the header is unwritten nothing has been sent as body and no
`Content-Length` has been read. -/
theorem Response.run_unwritten (calls : List WriterCall) (s : Response)
    (h : s.wroteHeader = false → s.body = "" ∧ s.contentLength = none) :
    (s.run calls).method = s.method
    ∧ ((s.run calls).wroteHeader = false →
        (s.run calls).body = "" ∧ (s.run calls).contentLength = none) := by
  induction calls generalizing s with
  | nil => exact ⟨rfl, h⟩
  | cons c cs ih =>
    have hstep : (s.apply c).method = s.method
        ∧ ((s.apply c).wroteHeader = false →
            (s.apply c).body = "" ∧ (s.apply c).contentLength = none) := by
      cases c with
      | headerSet k x => exact ⟨rfl, h⟩
      | headerAdd k x => exact ⟨rfl, h⟩
      | headerDel k => exact ⟨rfl, h⟩
      | WriteHeader code =>
        refine ⟨Response.WriteHeader_method s code, ?_⟩
        simp only [Response.apply]
        unfold Response.WriteHeader
        split
        · exact h
        · rename_i hw
          have hw' : s.wroteHeader = false := by simpa using hw
          split
          · exact fun _ => h hw'
          · split
            · exact fun _ => h hw'
            · intro hfalse
              rw [(Response.readContentLength_fields _).2.1] at hfalse
              cases hfalse
      | Write data =>
        refine ⟨(Response.Write_method s data).trans (Response.WriteHeader_method s 200), ?_⟩
        intro hfalse
        simp only [Response.apply, Response.Write_wrote] at hfalse
        cases hfalse
    have := ih (s.apply c) hstep.2
    exact ⟨this.1.trans hstep.1, this.2⟩

theorem ResponseWriter.response_unwritten (w : ResponseWriter) :
    w.response.method = w.method
    ∧ (w.response.wroteHeader = false → w.response.body = "" ∧ w.response.contentLength = none) :=
  Response.run_unwritten w.calls (Response.fresh w.method) (fun _ => ⟨rfl, rfl⟩)

/-! ## `handleError` -/

/-- The response state after the three header calls of `http.Error`. -/
theorem Error_headers (w : ResponseWriter) :
    (((w.HeaderDel "Content-Length").HeaderSet "Content-Type"
        "text/plain; charset=utf-8").HeaderSet "X-Content-Type-Options" "nosniff").response
      = { w.response with
          header := ((w.response.header.Del "Content-Length").Set "Content-Type"
            "text/plain; charset=utf-8").Set "X-Content-Type-Options" "nosniff" } := by
  simp [ResponseWriter.response_HeaderSet, ResponseWriter.response_HeaderDel, Response.apply]

/-- C4, as stated, fails. With code 0 or 1000 `WriteHeader` panics and neither
status nor body is written; with code 204, 304 or 101 the status allows no
body; with code 100 an informational response goes out and the final status
is 200; the answer to a `HEAD` request has no body; and once the header is
written the status stays what it was. -/
theorem handleError_counterexample :
    ((handleError exampleWorld (ResponseWriter.new "GET") exampleRequest "boom" 0).w.response.panicked
        = true
      ∧ (handleError exampleWorld (ResponseWriter.new "GET") exampleRequest "boom"
          0).w.response.wroteHeader = false
      ∧ (handleError exampleWorld (ResponseWriter.new "GET") exampleRequest "boom" 0).w.response.body
          = "")
    ∧ ((handleError exampleWorld (ResponseWriter.new "GET") exampleRequest "boom"
          1000).w.response.panicked = true
      ∧ (handleError exampleWorld (ResponseWriter.new "GET") exampleRequest "boom"
          1000).w.response.wroteHeader = false)
    ∧ ((handleError exampleWorld (ResponseWriter.new "GET") exampleRequest "boom"
          204).w.response.status = 204
      ∧ (handleError exampleWorld (ResponseWriter.new "GET") exampleRequest "boom"
          204).w.response.body = "")
    ∧ (handleError exampleWorld (ResponseWriter.new "GET") exampleRequest "boom" 304).w.response.body
        = ""
    ∧ (handleError exampleWorld (ResponseWriter.new "GET") exampleRequest "boom" 101).w.response.body
        = ""
    ∧ ((handleError exampleWorld (ResponseWriter.new "GET") exampleRequest "boom"
          100).w.response.status = 200
      ∧ (handleError exampleWorld (ResponseWriter.new "GET") exampleRequest "boom"
          100).w.response.interim.map (fun p => p.1) = [100])
    ∧ ((handleError exampleWorld (ResponseWriter.new "HEAD") exampleRequest "boom"
          500).w.response.status = 500
      ∧ (handleError exampleWorld (ResponseWriter.new "HEAD") exampleRequest "boom"
          500).w.response.body = "")
    ∧ (handleError exampleWorld ((ResponseWriter.new "GET").WriteHeader 200) exampleRequest "boom"
        500).w.response.status = 200 := by
  decide

/-- C4, amended. For every error string and every status code from 200 to 999
other than 204 and 304, on a writer whose header is not yet written and for a
request whose method is not `HEAD`, `handleError` answers with an HTTP error:
the status of the response is exactly `code`, its body is `err` followed by a
newline, and it carries `Content-Type: text/plain; charset=utf-8` and
`X-Content-Type-Options: nosniff`; the request is left as it was. -/
theorem handleError_answers_with_http_error (world : World) (w : ResponseWriter) (req : Request)
    (err : String) (code : Int)
    (hlow : 200 ≤ code) (hhigh : code ≤ 999) (h204 : code ≠ 204) (h304 : code ≠ 304)
    (hfresh : w.response.wroteHeader = false) (hhead : w.method ≠ "HEAD") :
    (handleError world w req err code).w.response.wroteHeader = true
    ∧ (handleError world w req err code).w.response.status = code
    ∧ (handleError world w req err code).w.response.body = err ++ "\n"
    ∧ (handleError world w req err code).w.response.sent "Content-Type"
        = ["text/plain; charset=utf-8"]
    ∧ (handleError world w req err code).w.response.sent "X-Content-Type-Options" = ["nosniff"]
    ∧ (handleError world w req err code).w.response.panicked = w.response.panicked
    ∧ (handleError world w req err code).req = req := by
  obtain ⟨hmethod, hunwritten⟩ := ResponseWriter.response_unwritten w
  obtain ⟨hbody, hcl⟩ := hunwritten hfresh
  have hvalid : invalidStatusCode code = false := by
    simp only [invalidStatusCode, Bool.or_eq_false_iff, decide_eq_false_iff_not]
    omega
  have hfinal : ¬ (100 ≤ code ∧ code ≤ 199 ∧ code ≠ 101) := by omega
  have hallowed : bodyAllowedForStatus code = true := by
    simp only [bodyAllowedForStatus, Bool.not_eq_true', Bool.or_eq_false_iff,
      decide_eq_false_iff_not]
    omega
  have hdata : err ++ "\n" ≠ "" := by
    intro h
    have := congrArg String.length h
    simp at this
    exact absurd this.2 (by decide)
  have hpanics : (((w.HeaderDel "Content-Length").HeaderSet "Content-Type"
      "text/plain; charset=utf-8").HeaderSet "X-Content-Type-Options" "nosniff").response.panics
      code = false := by
    simp [Response.panics, hvalid]
  -- the state after the header calls and `WriteHeader(code)`
  have hnoCL : (((w.response.header.Del "Content-Length").Set "Content-Type"
      "text/plain; charset=utf-8").Set "X-Content-Type-Options" "nosniff") "Content-Length"
      = [] := by
    have e1 : ("Content-Length" : String) ≠ "X-Content-Type-Options" := by decide
    have e2 : ("Content-Length" : String) ≠ "Content-Type" := by decide
    simp [Header.Set, Header.Del, canonical_Content_Length, canonical_Content_Type,
      canonical_X_Content_Type_Options, e1, e2]
  have hwritten : (((((w.HeaderDel "Content-Length").HeaderSet "Content-Type"
      "text/plain; charset=utf-8").HeaderSet "X-Content-Type-Options" "nosniff").WriteHeader
      code).response)
      = { w.response with
          header := ((w.response.header.Del "Content-Length").Set "Content-Type"
            "text/plain; charset=utf-8").Set "X-Content-Type-Options" "nosniff",
          wroteHeader := true, status := code,
          sent := ((w.response.header.Del "Content-Length").Set "Content-Type"
            "text/plain; charset=utf-8").Set "X-Content-Type-Options" "nosniff" } := by
    rw [ResponseWriter.response_WriteHeader, Error_headers]
    have hs0 : ({ w.response with
        header := ((w.response.header.Del "Content-Length").Set "Content-Type"
          "text/plain; charset=utf-8").Set "X-Content-Type-Options" "nosniff" }
        : Response).wroteHeader = false := hfresh
    refine (Response.WriteHeader_final _ code hs0 hvalid hfinal).trans ?_
    exact (Response.readContentLength_fields _).2.2.2.2.2.2.2.2.2 hnoCL
  have hresult : (handleError world w req err code).w.response
      = { w.response with
          header := ((w.response.header.Del "Content-Length").Set "Content-Type"
            "text/plain; charset=utf-8").Set "X-Content-Type-Options" "nosniff",
          wroteHeader := true, status := code,
          sent := ((w.response.header.Del "Content-Length").Set "Content-Type"
            "text/plain; charset=utf-8").Set "X-Content-Type-Options" "nosniff",
          written := w.response.written + (err ++ "\n").utf8ByteSize,
          body := err ++ "\n" } := by
    simp only [handleError, Error, hpanics, Bool.false_eq_true, if_false]
    rw [ResponseWriter.response_Write, hwritten]
    have hhead' : ¬ w.response.method = "HEAD" := by rw [hmethod]; exact hhead
    simp [Response.Write, Response.WriteHeader_written, hdata, hallowed, hcl, hhead', hbody]
  rw [hresult]
  have e1 : ("Content-Type" : String) ≠ "X-Content-Type-Options" := by decide
  refine ⟨rfl, rfl, rfl, ?_, ?_, rfl, rfl⟩
  · simp [Header.Set, canonical_Content_Type, canonical_X_Content_Type_Options, e1]
  · simp [Header.Set, canonical_X_Content_Type_Options]

/-- C4, amended, at a new writer: the error `Not Found` with code 404 on the
request `GET /v1/tasks`. -/
theorem handleError_answers_with_http_error_witness :
    (handleError exampleWorld (ResponseWriter.new "GET") exampleRequest "Not Found"
        404).w.response.status = 404
    ∧ (handleError exampleWorld (ResponseWriter.new "GET") exampleRequest "Not Found"
        404).w.response.body = "Not Found\n" := by
  have h := handleError_answers_with_http_error exampleWorld (ResponseWriter.new "GET")
    exampleRequest "Not Found" 404 (by decide) (by decide) (by decide) (by decide) rfl (by decide)
  exact ⟨h.2.1, h.2.2.1⟩
/-! ## Routing in the mux of `httpMux` -/

theorem httpMux_eq (lib : Lib) (conf : Config) (world : World) :
    (httpMux lib conf world).2 =
      match lib.RegisterSchedulerHandlerFromEndpoint conf.RPCAddress with
      | some e => .error e
      | none => .ok ⟨httpMuxEntries lib conf⟩ := by
  unfold httpMux
  simp only []
  cases hreg : lib.RegisterSchedulerHandlerFromEndpoint conf.RPCAddress with
  | some e => rfl
  | none =>
    cases hc : conf.DisableHTTPCache <;> simp only [hc, httpMuxEntries, v1Handler] <;> rfl

theorem pathMatch_under_v1 (t : List Char) :
    pathMatch "/v1" ⟨'/' :: 'v' :: '1' :: '/' :: t⟩ = false
    ∧ pathMatch "/v1/" ⟨'/' :: 'v' :: '1' :: '/' :: t⟩ = true
    ∧ pathMatch "/static" ⟨'/' :: 'v' :: '1' :: '/' :: t⟩ = false
    ∧ pathMatch "/static/" ⟨'/' :: 'v' :: '1' :: '/' :: t⟩ = false
    ∧ pathMatch "" ⟨'/' :: 'v' :: '1' :: '/' :: t⟩ = false
    ∧ pathMatch "/" ⟨'/' :: 'v' :: '1' :: '/' :: t⟩ = true := by
  have h : ("/v1" : String) ≠ ⟨'/' :: 'v' :: '1' :: '/' :: t⟩ := by
    intro h
    have := congrArg String.length h
    simp [String.length] at this
  have h' : ("/static" : String) ≠ ⟨'/' :: 'v' :: '1' :: '/' :: t⟩ := by
    intro h
    have := congrArg String.data h
    simp at this
  have l1 : ("/v1/" : String).length = 4 := by decide
  have l2 : ("/static/" : String).length = 8 := by decide
  have l3 : ("/" : String).length = 1 := by decide
  refine ⟨?_, ?_, ?_, ?_, ?_, ?_⟩ <;> simp [pathMatch, h, h', l1, l2, l3, List.isPrefixOf]

theorem path_under_v1 (path : String) (hp : "/v1/".toList <+: path.toList) :
    ∃ t, path = ⟨'/' :: 'v' :: '1' :: '/' :: t⟩ := by
  obtain ⟨t, ht⟩ := hp
  refine ⟨t, ?_⟩
  cases path with
  | mk data =>
    simp only [String.toList] at ht
    rw [← ht]
    rfl

/-- A path under `/v1/` is routed to the handler registered for `/v1/`. -/
theorem httpMux_handler_under_v1 (lib : Lib) (conf : Config) (path : String)
    (hp : "/v1/".toList <+: path.toList) :
    (ServeMux.mk (httpMuxEntries lib conf)).handler path = v1Handler lib conf := by
  obtain ⟨t, rfl⟩ := path_under_v1 path hp
  obtain ⟨h1, h2, h3, h4, h5, h6⟩ := pathMatch_under_v1 t
  have l1 : ("/v1/" : String).length = 4 := by decide
  have l3 : ("/" : String).length = 1 := by decide
  simp [ServeMux.handler, ServeMux.match', httpMuxEntries, h1, h2, h3, h4, h5, h6, l1, l3]

/-- Calls that leave a header key alone keep its binding in the header map, in
the header sent and in every informational response. -/
theorem Response.run_leaves_header (key : String) (v : List String) (cs : List WriterCall)
    (hkey : key ≠ "Content-Length")
    (hcs : ∀ c ∈ cs, c.headerKey ≠ some key) (s : Response)
    (h1 : s.header key = v) (h2 : s.wroteHeader = true → s.sent key = v)
    (h3 : ∀ p ∈ s.interim, p.2 key = v) :
    (s.run cs).header key = v
    ∧ ((s.run cs).wroteHeader = true → (s.run cs).sent key = v)
    ∧ (∀ p ∈ (s.run cs).interim, p.2 key = v) := by
  induction cs generalizing s with
  | nil => exact ⟨h1, h2, h3⟩
  | cons c cs ih =>
    have hc : c.headerKey ≠ some key := hcs c (List.mem_cons_self _ _)
    have hrest : ∀ c' ∈ cs, c'.headerKey ≠ some key :=
      fun c' hc' => hcs c' (List.mem_cons_of_mem _ hc')
    have hWH : ∀ code, (s.WriteHeader code).header key = v
        ∧ ((s.WriteHeader code).wroteHeader = true → (s.WriteHeader code).sent key = v)
        ∧ (∀ p ∈ (s.WriteHeader code).interim, p.2 key = v) := by
      intro code
      unfold Response.WriteHeader
      split
      · exact ⟨h1, h2, h3⟩
      · split
        · exact ⟨h1, h2, h3⟩
        · split
          · refine ⟨h1, h2, ?_⟩
            intro p hp
            simp only [List.mem_append, List.mem_singleton] at hp
            rcases hp with hp | rfl
            · exact h3 p hp
            · exact h1
          · obtain ⟨_, _, _, f4, _, _, f7, _, f9, _⟩ := Response.readContentLength_fields
              { s with wroteHeader := true, status := code, sent := s.header }
            refine ⟨?_, ?_, ?_⟩
            · rw [f9 key hkey]
              exact h1
            · intro _
              rw [f4]
              exact h1
            · rw [f7]
              exact h3
    have hstep : (s.apply c).header key = v
        ∧ ((s.apply c).wroteHeader = true → (s.apply c).sent key = v)
        ∧ (∀ p ∈ (s.apply c).interim, p.2 key = v) := by
      cases c with
      | headerSet k x =>
        have hk : key ≠ CanonicalMIMEHeaderKey k := fun e => hc (by simp [WriterCall.headerKey, e])
        exact ⟨by simp [Response.apply, Header.Set, hk, h1], by simpa [Response.apply] using h2,
          by simpa [Response.apply] using h3⟩
      | headerAdd k x =>
        have hk : key ≠ CanonicalMIMEHeaderKey k := fun e => hc (by simp [WriterCall.headerKey, e])
        exact ⟨by simp [Response.apply, Header.Add, hk, h1], by simpa [Response.apply] using h2,
          by simpa [Response.apply] using h3⟩
      | headerDel k =>
        have hk : key ≠ CanonicalMIMEHeaderKey k := fun e => hc (by simp [WriterCall.headerKey, e])
        exact ⟨by simp [Response.apply, Header.Del, hk, h1], by simpa [Response.apply] using h2,
          by simpa [Response.apply] using h3⟩
      | WriteHeader code => exact hWH code
      | Write data =>
        have h200 := hWH 200
        simp only [Response.apply, Response.Write]
        split
        · exact h200
        · split
          · exact h200
          · split
            · exact h200
            · split <;> exact h200
    exact ih hrest (s.apply c) hstep.1 hstep.2.1 hstep.2.2

theorem finishRequest_sent (w : ResponseWriter) (key : String) (v : List String)
    (hkey : key ≠ "Content-Length")
    (h1 : w.response.header key = v) (h2 : w.response.wroteHeader = true → w.response.sent key = v)
    (h3 : ∀ p ∈ w.response.interim, p.2 key = v) :
    w.finishRequest.response.wroteHeader = true
    ∧ w.finishRequest.response.sent key = v
    ∧ (∀ p ∈ w.finishRequest.response.interim, p.2 key = v) := by
  unfold ResponseWriter.finishRequest
  by_cases hw : w.response.wroteHeader = true
  · rw [if_pos hw]
    exact ⟨hw, h2 hw, h3⟩
  · have hw' : w.response.wroteHeader = false := by simpa using hw
    simp only [hw', Bool.false_eq_true, if_false, ResponseWriter.response_WriteHeader]
    have h := Response.run_leaves_header key v [.WriteHeader 200] hkey
      (by intro c hc; simp at hc; subst hc; simp [WriterCall.headerKey]) w.response h1 h2 h3
    simp only [Response.run, List.foldl_cons, List.foldl_nil, Response.apply] at h
    exact ⟨Response.WriteHeader_200_wrote _, h.2.1 (Response.WriteHeader_200_wrote _), h.2.2⟩

theorem noCacheHandler_ne (g : Handler) : Handler.noCacheHandler g ≠ g := by
  intro h
  have := congrArg sizeOf h
  simp at this

theorem serve_under_v1 (lib : Lib) (conf : Config) (r : Request)
    (hp : "/v1/".toList <+: r.URL.Path.toList)
    (hstar : r.RequestURI ≠ "*")
    (hclean : r.Method = "CONNECT" ∨ cleanPath r.URL.Path = r.URL.Path) (w : ResponseWriter) :
    (ServeMux.mk (httpMuxEntries lib conf)).ServeHTTP lib.RedirectHandler w r
      = (v1Handler lib conf).ServeHTTP w r := by
  have hq : ¬ (r.Method ≠ "CONNECT" ∧ cleanPath r.URL.Path ≠ r.URL.Path) := by
    rintro ⟨a, b⟩
    rcases hclean with h | h
    · exact a h
    · exact b h
  simp only [ServeMux.ServeHTTP, ServeMux.Handler, hstar, hq, if_false,
    httpMux_handler_under_v1 lib conf _ hp]

theorem httpMux_ok_m (lib : Lib) (conf : Config) (world : World) (mux : ServeMux)
    (h : (httpMux lib conf world).2 = .ok mux) : mux = ⟨httpMuxEntries lib conf⟩ := by
  rw [httpMux_eq] at h
  cases hreg : lib.RegisterSchedulerHandlerFromEndpoint conf.RPCAddress with
  | some e => simp [hreg] at h
  | none =>
    simp only [hreg] at h
    injection h with h
    exact h.symm

theorem exampleGateway_leaves_header (key : String) : exampleGateway.LeavesHeader key := by
  intro w r
  refine ⟨[.WriteHeader 200, .Write "\x7b\x7d"], ?_, ?_⟩
  · simp [exampleGateway, Handler.ServeHTTP, ResponseWriter.WriteHeader, ResponseWriter.Write]
  · intro c hc
    simp at hc
    rcases hc with rfl | rfl <;> simp [WriterCall.headerKey]

/-! ## `httpMux` -/

/-- C1, as stated, fails: with `DisableHTTPCache` false `httpMux` succeeds and
the response to `GET /v1/tasks` is the gateway's own, with no `Cache-Control`
header. -/
theorem httpMux_cache_control_counterexample :
    ∃ mux, (httpMux exampleLib { DisableHTTPCache := false, RPCAddress := "localhost:9090" }
              exampleWorld).2 = .ok mux
      ∧ "/v1/".toList <+: exampleRequest.URL.Path.toList
      ∧ (serve exampleLib.RedirectHandler mux exampleRequest).calls
          = [WriterCall.WriteHeader 200, WriterCall.Write "\x7b\x7d"]
      ∧ (serve exampleLib.RedirectHandler mux exampleRequest).response.wroteHeader = true
      ∧ (serve exampleLib.RedirectHandler mux exampleRequest).response.sent "Cache-Control" = [] :=
  ⟨⟨httpMuxEntries exampleLib { DisableHTTPCache := false, RPCAddress := "localhost:9090" }⟩,
    rfl, by decide, by decide, by decide, by decide⟩

/-- With the cache disabled, a request under `/v1/` whose path is not canonical
is answered by the redirect of the mux, which carries no `Cache-Control`. -/
theorem httpMux_redirects_unclean_path :
    (serve exampleLib.RedirectHandler
        ⟨httpMuxEntries exampleLib { DisableHTTPCache := true, RPCAddress := "localhost:9090" }⟩
        { exampleRequest with URL := { Path := "/v1//tasks", RawQuery := "" } }).calls
      = [WriterCall.headerSet "Location" "/v1/tasks", WriterCall.WriteHeader 301] := by
  decide

/-- With the cache disabled, a gateway that sets the header itself, under any
spelling of the key, replaces `no-store`. -/
theorem httpMux_gateway_overrides_header :
    (serve exampleLib.RedirectHandler
        ⟨httpMuxEntries { exampleLib with grpcMux := overridingGateway }
          { DisableHTTPCache := true, RPCAddress := "localhost:9090" }⟩
        exampleRequest).response.sent "Cache-Control" = ["public, max-age=3600"]
    ∧ ¬ overridingGateway.LeavesHeader "Cache-Control" := by
  refine ⟨by decide, ?_⟩
  intro h
  obtain ⟨cs, hcs, hkeys⟩ := h (ResponseWriter.new "GET") exampleRequest
  have hcs' : cs = [WriterCall.headerSet "cache-control" "public, max-age=3600",
      WriterCall.WriteHeader 200] := by
    simpa [overridingGateway, Handler.ServeHTTP, ResponseWriter.HeaderSet,
      ResponseWriter.WriteHeader, ResponseWriter.new] using hcs.symm
  exact hkeys (WriterCall.headerSet "cache-control" "public, max-age=3600")
    (by simp [hcs']) (by decide)

/-- With the cache disabled, the request `OPTIONS *` is answered by the mux
itself with status 400 and no `Cache-Control`. -/
theorem httpMux_star_request :
    (serve exampleLib.RedirectHandler
        ⟨httpMuxEntries exampleLib { DisableHTTPCache := true, RPCAddress := "localhost:9090" }⟩
        { exampleRequest with Method := "OPTIONS", RequestURI := "*" }).calls
      = [WriterCall.headerSet "Connection" "close", WriterCall.WriteHeader 400] := by
  decide

/-- With the cache disabled, a gateway that panics in `WriteHeader` completes no
response. -/
theorem httpMux_gateway_panics :
    (serve exampleLib.RedirectHandler
        ⟨httpMuxEntries { exampleLib with grpcMux := panickingGateway }
          { DisableHTTPCache := true, RPCAddress := "localhost:9090" }⟩
        exampleRequest).response.panicked = true
    ∧ (serve exampleLib.RedirectHandler
        ⟨httpMuxEntries { exampleLib with grpcMux := panickingGateway }
          { DisableHTTPCache := true, RPCAddress := "localhost:9090" }⟩
        exampleRequest).response.wroteHeader = false := by
  decide

/-- C1, amended. When `conf.DisableHTTPCache` is true and `httpMux` succeeds,
every request whose path is under `/v1/` and which the mux hands to the
registered handler (request URI other than `*`, path in canonical form or method
`CONNECT`) gets, when the handler does not panic, a response whose header
carries `Cache-Control: no-store`, as does every informational response sent
before it, provided the gateway mux itself leaves the `Cache-Control` key
alone. -/
theorem httpMux_no_store_when_cache_disabled (lib : Lib) (conf : Config) (world : World)
    (mux : ServeMux) (r : Request)
    (hok : (httpMux lib conf world).2 = .ok mux)
    (hconf : conf.DisableHTTPCache = true)
    (hp : "/v1/".toList <+: r.URL.Path.toList)
    (hstar : r.RequestURI ≠ "*")
    (hclean : r.Method = "CONNECT" ∨ cleanPath r.URL.Path = r.URL.Path)
    (hg : lib.grpcMux.LeavesHeader "Cache-Control")
    (hnp : (serve lib.RedirectHandler mux r).response.panicked = false) :
    (serve lib.RedirectHandler mux r).response.wroteHeader = true
    ∧ (serve lib.RedirectHandler mux r).response.sent "Cache-Control" = ["no-store"]
    ∧ (∀ p ∈ (serve lib.RedirectHandler mux r).response.interim,
        p.2 "Cache-Control" = ["no-store"]) := by
  rw [httpMux_ok_m lib conf world mux hok] at hnp ⊢
  unfold serve at hnp ⊢
  simp only [] at hnp ⊢
  rw [serve_under_v1 lib conf r hp hstar hclean] at hnp ⊢
  simp only [v1Handler, hconf, if_true, Handler.ServeHTTP] at hnp ⊢
  obtain ⟨cs, hcs, hkeys⟩ := hg ((ResponseWriter.new r.Method).HeaderSet "Cache-Control" "no-store") r
  have hresp : (lib.grpcMux.ServeHTTP ((ResponseWriter.new r.Method).HeaderSet "Cache-Control"
      "no-store") r).response
      = (((Response.fresh (lib.grpcMux.ServeHTTP ((ResponseWriter.new r.Method).HeaderSet
          "Cache-Control" "no-store") r).method).apply
          (.headerSet "Cache-Control" "no-store")).run cs) := by
    unfold ResponseWriter.response
    rw [hcs]
    simp [ResponseWriter.HeaderSet, ResponseWriter.new, Response.run]
  have hinv := Response.run_leaves_header "Cache-Control" ["no-store"] cs (by decide) hkeys
    ((Response.fresh (lib.grpcMux.ServeHTTP ((ResponseWriter.new r.Method).HeaderSet
          "Cache-Control" "no-store") r).method).apply (.headerSet "Cache-Control" "no-store"))
    (by simp [Response.apply, Header.Set, canonical_Cache_Control])
    (by simp [Response.apply, Response.fresh])
    (by simp [Response.apply, Response.fresh])
  rw [← hresp] at hinv
  have hfin := finishRequest_sent _ "Cache-Control" ["no-store"] (by decide) hinv.1 hinv.2.1
    hinv.2.2
  by_cases hpan : (lib.grpcMux.ServeHTTP ((ResponseWriter.new r.Method).HeaderSet "Cache-Control"
      "no-store") r).response.panicked = true
  · simp [hpan] at hnp
  · simp only [hpan, if_false]
    exact hfin

/-- C1, amended, at `GET /v1/tasks` with the cache disabled. -/
theorem httpMux_no_store_when_cache_disabled_witness :
    (serve exampleLib.RedirectHandler
        ⟨httpMuxEntries exampleLib { DisableHTTPCache := true, RPCAddress := "localhost:9090" }⟩
        exampleRequest).response.wroteHeader = true
    ∧ (serve exampleLib.RedirectHandler
        ⟨httpMuxEntries exampleLib { DisableHTTPCache := true, RPCAddress := "localhost:9090" }⟩
        exampleRequest).response.sent "Cache-Control" = ["no-store"] :=
  let h := httpMux_no_store_when_cache_disabled exampleLib
    { DisableHTTPCache := true, RPCAddress := "localhost:9090" } exampleWorld
    ⟨httpMuxEntries exampleLib { DisableHTTPCache := true, RPCAddress := "localhost:9090" }⟩
    exampleRequest rfl rfl (by decide) (by decide) (Or.inr (by decide))
    (exampleGateway_leaves_header "Cache-Control") (by decide)
  ⟨h.1, h.2.1⟩

/-- C3. In the mux returned by `httpMux` the handler registered for `/v1/` is
`noCacheHandler(grpcMux)` if and only if `conf.DisableHTTPCache` is true, and
then it sets `Cache-Control: no-store` before it delegates to the gateway mux;
when `conf.DisableHTTPCache` is false the gateway mux itself is registered and
a request under `/v1/` is answered by the gateway mux on the unchanged writer. -/
theorem httpMux_v1_registration (lib : Lib) (conf : Config) (world : World) (mux : ServeMux)
    (hok : (httpMux lib conf world).2 = .ok mux) :
    ∃ e, mux.m.lookup "/v1/" = some e
      ∧ e.explicit = true
      ∧ (e.h = Handler.noCacheHandler lib.grpcMux ↔ conf.DisableHTTPCache = true)
      ∧ (conf.DisableHTTPCache = true → ∀ w r,
          e.h.ServeHTTP w r = lib.grpcMux.ServeHTTP (w.HeaderSet "Cache-Control" "no-store") r)
      ∧ (conf.DisableHTTPCache = false →
          e.h = lib.grpcMux
          ∧ ∀ w r, "/v1/".toList <+: r.URL.Path.toList → r.RequestURI ≠ "*" →
              (r.Method = "CONNECT" ∨ cleanPath r.URL.Path = r.URL.Path) →
              mux.ServeHTTP lib.RedirectHandler w r = lib.grpcMux.ServeHTTP w r) := by
  rw [httpMux_ok_m lib conf world mux hok]
  refine ⟨⟨true, v1Handler lib conf, "/v1/"⟩, by rfl, rfl, ?_, ?_, ?_⟩
  · cases hc : conf.DisableHTTPCache
    · simp only [v1Handler, hc]
      constructor
      · intro h
        exact absurd h.symm (noCacheHandler_ne lib.grpcMux)
      · intro h
        cases h
    · simp [v1Handler, hc]
  · intro hc w r
    simp [v1Handler, hc, Handler.ServeHTTP]
  · intro hc
    refine ⟨by simp [v1Handler, hc], ?_⟩
    intro w r hp hstar hclean
    rw [serve_under_v1 lib conf r hp hstar hclean]
    simp [v1Handler, hc]

/-- C3 at the example imports with the cache disabled. -/
theorem httpMux_v1_registration_witness :
    ∃ e, (httpMuxEntries exampleLib { DisableHTTPCache := true, RPCAddress := "localhost:9090" }).lookup
          "/v1/" = some e
      ∧ e.explicit = true
      ∧ (e.h = Handler.noCacheHandler exampleLib.grpcMux ↔ true = true) := by
  obtain ⟨e, h1, h2, h3, _⟩ := httpMux_v1_registration exampleLib
    { DisableHTTPCache := true, RPCAddress := "localhost:9090" } exampleWorld
    ⟨httpMuxEntries exampleLib { DisableHTTPCache := true, RPCAddress := "localhost:9090" }⟩ rfl
  exact ⟨e, h1, h2, h3⟩

/-! ## Storage lemmas -/

theorem copyTree_cons_below (src dst r : Path) (c : String) (tl : Files) (hr : r ≠ []) :
    copyTree src dst ((src ++ r, c) :: tl) = (dst ++ r, c) :: copyTree src dst tl := by
  have h1 : src <+: src ++ r := List.prefix_append src r
  have h2 : src ++ r ≠ src := by
    intro h
    have := congrArg List.length h
    simp at this
    exact hr this
  simp [copyTree, h2]

theorem copyTree_cons_other (src dst p : Path) (c : String) (tl : Files)
    (hp : ¬ (src <+: p ∧ p ≠ src)) :
    copyTree src dst ((p, c) :: tl) = copyTree src dst tl := by
  simp only [copyTree, List.filterMap_cons, hp, if_false]

theorem lookup_copyTree_append (src dst : Path) (files rest : Files) (rel : Path)
    (hrel : rel ≠ []) :
    (copyTree src dst files ++ rest).lookup (dst ++ rel) =
      match files.lookup (src ++ rel) with
      | some c => some c
      | none => rest.lookup (dst ++ rel) := by
  induction files with
  | nil => simp [copyTree]
  | cons pc tl ih =>
    obtain ⟨p, c⟩ := pc
    by_cases hp : src <+: p ∧ p ≠ src
    · obtain ⟨⟨r, rfl⟩, hne⟩ := hp
      have hr : r ≠ [] := by
        intro h
        exact hne (by simp [h])
      rw [copyTree_cons_below src dst r c tl hr]
      by_cases hrr : rel = r
      · subst hrr
        simp [List.lookup_cons]
      · have e1 : (dst ++ rel == dst ++ r) = false := by simpa using hrr
        have e2 : (src ++ rel == src ++ r) = false := by simpa using hrr
        simp only [List.cons_append, List.lookup_cons, e1, e2]
        exact ih
    · rw [copyTree_cons_other src dst p c tl hp]
      have e2 : (src ++ rel == p) = false := by
        rw [beq_eq_false_iff_ne]
        intro h
        apply hp
        refine ⟨⟨rel, h⟩, ?_⟩
        intro h2
        rw [h2] at h
        have := congrArg List.length h
        simp at this
        exact hrel this
      simp only [List.lookup_cons, e2]
      exact ih

theorem lookup_copyTree_append_other (src dst : Path) (files rest : Files) (k : Path)
    (hk : ¬ dst <+: k) :
    (copyTree src dst files ++ rest).lookup k = rest.lookup k := by
  induction files with
  | nil => simp [copyTree]
  | cons pc tl ih =>
    obtain ⟨p, c⟩ := pc
    by_cases hp : src <+: p ∧ p ≠ src
    · obtain ⟨⟨r, rfl⟩, hne⟩ := hp
      have hr : r ≠ [] := by
        intro h
        exact hne (by simp [h])
      rw [copyTree_cons_below src dst r c tl hr]
      have e1 : (k == dst ++ r) = false := by
        rw [beq_eq_false_iff_ne]
        intro h
        exact hk ⟨r, h.symm⟩
      simp only [List.cons_append, List.lookup_cons, e1]
      exact ih
    · rw [copyTree_cons_other src dst p c tl hp]
      exact ih

theorem lookup_removeTree_below (dir : Path) (files : Files) (k : Path) (hk : dir <+: k) :
    (removeTree dir files).lookup k = none := by
  induction files with
  | nil => rfl
  | cons pc tl ih =>
    obtain ⟨p, c⟩ := pc
    by_cases hp : dir <+: p
    · simpa [removeTree, hp] using ih
    · have e : (k == p) = false := by
        rw [beq_eq_false_iff_ne]
        intro h
        exact hp (h ▸ hk)
      have : removeTree dir ((p, c) :: tl) = (p, c) :: removeTree dir tl := by
        simp [removeTree, hp]
      rw [this, List.lookup_cons, e]
      exact ih

theorem lookup_removeTree_other (dir : Path) (files : Files) (k : Path) (hk : ¬ dir <+: k) :
    (removeTree dir files).lookup k = files.lookup k := by
  induction files with
  | nil => rfl
  | cons pc tl ih =>
    obtain ⟨p, c⟩ := pc
    by_cases hp : dir <+: p
    · have e : (k == p) = false := by
        rw [beq_eq_false_iff_ne]
        intro h
        exact hk (h ▸ hp)
      have : removeTree dir ((p, c) :: tl) = removeTree dir tl := by
        simp [removeTree, hp]
      rw [this, List.lookup_cons, e]
      exact ih
    · have : removeTree dir ((p, c) :: tl) = (p, c) :: removeTree dir tl := by
        simp [removeTree, hp]
      rw [this, List.lookup_cons, List.lookup_cons, ih]

/-- A tree that is transferred and replaces its destination is found there
path by path. -/
theorem lookup_transfer (src dst : Path) (files target : Files) (rel : Path) (hrel : rel ≠ []) :
    (copyTree src dst files ++ removeTree dst target).lookup (dst ++ rel)
      = files.lookup (src ++ rel) := by
  rw [lookup_copyTree_append src dst files _ rel hrel,
    lookup_removeTree_below dst target _ (List.prefix_append _ _)]
  cases files.lookup (src ++ rel) <;> rfl

theorem copyTree_nonempty_of_lookup (src dst : Path) (files : Files) (rel : Path) (c : String)
    (hrel : rel ≠ []) (h : files.lookup (src ++ rel) = some c) :
    (copyTree src dst files).isEmpty = false := by
  induction files with
  | nil => simp at h
  | cons pc tl ih =>
    obtain ⟨p, c'⟩ := pc
    by_cases hp : src <+: p ∧ p ≠ src
    · obtain ⟨⟨r, rfl⟩, hne⟩ := hp
      have hr : r ≠ [] := by
        intro h
        exact hne (by simp [h])
      rw [copyTree_cons_below src dst r c' tl hr]
      rfl
    · rw [copyTree_cons_other src dst p c' tl hp]
      have e2 : (src ++ rel == p) = false := by
        rw [beq_eq_false_iff_ne]
        intro h
        apply hp
        refine ⟨⟨rel, h⟩, ?_⟩
        intro h2
        rw [h2] at h
        have := congrArg List.length h
        simp at this
        exact hrel this
      rw [List.lookup_cons, e2] at h
      exact ih h

theorem lookup_of_copyTree_nonempty (src dst : Path) (files : Files)
    (h : (copyTree src dst files).isEmpty = false) :
    ∃ rel c, rel ≠ [] ∧ files.lookup (src ++ rel) = some c := by
  induction files with
  | nil => simp [copyTree] at h
  | cons pc tl ih =>
    obtain ⟨p, c'⟩ := pc
    by_cases hp : src <+: p ∧ p ≠ src
    · obtain ⟨⟨r, rfl⟩, hne⟩ := hp
      have hr : r ≠ [] := by
        intro h
        exact hne (by simp [h])
      exact ⟨r, c', hr, by simp [List.lookup_cons]⟩
    · rw [copyTree_cons_other src dst p c' tl hp] at h
      obtain ⟨rel, c, hrel, hc⟩ := ih h
      by_cases e : (src ++ rel == p) = true
      · exact ⟨rel, c', hrel, by simp [List.lookup_cons, e]⟩
      · have e' : (src ++ rel == p) = false := by simpa using e
        exact ⟨rel, c, hrel, by rw [List.lookup_cons, e']; exact hc⟩

/-! ## Storage round trip -/

theorem Backend.put_ok (b : Backend) (fault : Option Nat) (remote fs : Files) (url : StorageURL)
    (path : Path) (type : FileType) (remote' : Files)
    (h : b.put fault remote fs url path type = .ok remote') :
    b.supports url = true
    ∧ (type = .FILE → ∃ c, fs.lookup path = some c ∧ remote' = (url.addr, c) :: remote)
    ∧ (type = .DIRECTORY → (copyTree path url.addr fs).isEmpty = false
        ∧ remote' = copyTree path url.addr fs ++ removeTree url.addr remote) := by
  unfold Backend.put at h
  cases hs : b.supports url
  · simp [hs] at h
  · cases hro : b.readOnly
    · simp only [hs, hro, Bool.not_true, Bool.false_eq_true, if_false] at h
      refine ⟨rfl, ?_, ?_⟩
      · intro ht
        subst ht
        simp only [] at h
        cases hl : fs.lookup path with
        | none => simp [hl] at h
        | some c =>
          simp only [hl] at h
          split at h
          · cases h
          · injection h with h
            exact ⟨c, rfl, h.symm⟩
      · intro ht
        subst ht
        simp only [] at h
        split at h
        · cases h
        · rename_i hne
          split at h
          · cases h
          · injection h with h
            exact ⟨by simpa using hne, h.symm⟩
    · simp [hs, hro] at h

theorem Backend.get_ok (b : Backend) (fault : Option Nat) (remote fs : Files) (url : StorageURL)
    (path : Path) (type : FileType) (fs' : Files)
    (h : b.get fault remote fs url path type = .ok fs') :
    (type = .FILE → ∃ c, remote.lookup url.addr = some c ∧ fs' = (path, c) :: fs)
    ∧ (type = .DIRECTORY → fs' = copyTree url.addr path remote ++ removeTree path fs) := by
  unfold Backend.get at h
  cases hs : b.supports url
  · simp [hs] at h
  · simp only [hs, Bool.not_true, Bool.false_eq_true, if_false] at h
    refine ⟨?_, ?_⟩
    · intro ht
      subst ht
      simp only [] at h
      cases hl : remote.lookup url.addr with
      | none => simp [hl] at h
      | some c =>
        simp only [hl] at h
        split at h
        · cases h
        · injection h with h
          exact ⟨c, rfl, h.symm⟩
    · intro ht
      subst ht
      simp only [] at h
      split at h
      · cases h
      · split at h
        · cases h
        · injection h with h
          exact h.symm

/-- C5, as stated, fails. A read-only backend rejects the `put` with
`UnsupportedOperationError`, nothing is stored and the `get` that follows
fails as well; and after a `put` that succeeded, a `get` that meets a network
failure reports a `StagingError` and leaves the destination without the second
file of the local directory. -/
theorem storage_round_trip_counterexample :
    exampleHTTP.put none [] testdata { scheme := "http", key := ["host", "dir"] }
        ["testdata", "test_dir"] .DIRECTORY = .error ⟨.UnsupportedOperationError, []⟩
    ∧ exampleHTTP.get none [] [] { scheme := "http", key := ["host", "dir"] }
        ["test_tmp"] .DIRECTORY = .error ⟨.StagingError, []⟩
    ∧ testdata.lookup (["testdata", "test_dir"] ++ ["file1"]) = some "file1 content\n"
    ∧ exampleS3.put none [] testdata (bucketURL ["dir"]) ["testdata", "test_dir"] .DIRECTORY
        = .ok [((bucketURL ["dir", "file1"]).addr, "file1 content\n"),
               ((bucketURL ["dir", "file2"]).addr, "file2 content\n")]
    ∧ exampleS3.get (some 1)
        [((bucketURL ["dir", "file1"]).addr, "file1 content\n"),
         ((bucketURL ["dir", "file2"]).addr, "file2 content\n")]
        [] (bucketURL ["dir"]) ["test_tmp"] .DIRECTORY
        = .error ⟨.StagingError, [(["test_tmp", "file1"], "file1 content\n")]⟩
    ∧ testdata.lookup (["testdata", "test_dir"] ++ ["file2"]) = some "file2 content\n" :=
  ⟨rfl, rfl, by decide, rfl, rfl, by decide⟩

/-- C5, amended. For every storage backend and every local file system: when
`put(url, localPath, type)` succeeds and the `get(url, otherPath, type)` that
follows succeeds, what is found at `otherPath` is what `localPath` holds: for
a `DIRECTORY` the same relative paths with the same contents, for a `FILE` the
same content; and `localPath` does hold a file. -/
theorem storage_round_trip (b : Backend) (putFault getFault : Option Nat)
    (remote fs fs2 : Files) (url : StorageURL) (localPath otherPath : Path) (type : FileType)
    (remote' fs' : Files)
    (hput : b.put putFault remote fs url localPath type = .ok remote')
    (hget : b.get getFault remote' fs2 url otherPath type = .ok fs') :
    (∀ rel, type.covers rel → fs'.lookup (otherPath ++ rel) = fs.lookup (localPath ++ rel))
    ∧ (∃ rel c, type.covers rel ∧ fs.lookup (localPath ++ rel) = some c) := by
  obtain ⟨_, hpf, hpd⟩ := Backend.put_ok b putFault remote fs url localPath type remote' hput
  obtain ⟨hgf, hgd⟩ := Backend.get_ok b getFault remote' fs2 url otherPath type fs' hget
  cases type with
  | FILE =>
    obtain ⟨c, hc, rfl⟩ := hpf rfl
    obtain ⟨c', hc', rfl⟩ := hgf rfl
    have hcc : c' = c := by
      simp [List.lookup_cons] at hc'
      exact hc'.symm
    subst hcc
    refine ⟨?_, ⟨[], c', rfl, by simpa using hc⟩⟩
    intro rel hrel
    have hrel' : rel = [] := hrel
    subst hrel'
    simp [List.lookup_cons, hc]
  | DIRECTORY =>
    obtain ⟨hne, rfl⟩ := hpd rfl
    have hfs' := hgd rfl
    subst hfs'
    refine ⟨?_, ?_⟩
    · intro rel hrel
      rw [lookup_transfer _ _ _ _ rel hrel, lookup_transfer _ _ _ _ rel hrel]
    · obtain ⟨rel, c, hrel, hc⟩ := lookup_of_copyTree_nonempty _ _ _ hne
      exact ⟨rel, c, hrel, hc⟩

/-- C5, amended, at the generic S3 backend and the directory `testdata/test_dir`
of the storage test: the file `file2` comes back with its content. -/
theorem storage_round_trip_witness :
    ([(["test_tmp", "file1"], "file1 content\n"),
      (["test_tmp", "file2"], "file2 content\n")] : Files).lookup (["test_tmp"] ++ ["file2"])
      = testdata.lookup (["testdata", "test_dir"] ++ ["file2"]) :=
  (storage_round_trip exampleS3 none none [] testdata [] (bucketURL ["dir"])
    ["testdata", "test_dir"] ["test_tmp"] .DIRECTORY
    [((bucketURL ["dir", "file1"]).addr, "file1 content\n"),
     ((bucketURL ["dir", "file2"]).addr, "file2 content\n")]
    [(["test_tmp", "file1"], "file1 content\n"), (["test_tmp", "file2"], "file2 content\n")]
    rfl rfl).1 ["file2"] (by decide)

/-- The two uploads of the storage test leave the objects `uploaded`. -/
theorem uploaded_by_put :
    (exampleStorage.Put none [] testdata (bucketURL ["testdata", "test_in"])
        ["testdata", "test_in"] .FILE).bind
      (fun remote => exampleStorage.Put none remote testdata (bucketURL ["testdata", "test_dir"])
        ["testdata", "test_dir"] .DIRECTORY)
      = .ok uploaded :=
  rfl

/-! ## Worker and scheduler -/

theorem runExecutors_head (run : Runner) (e : Executor) (rest : List Executor) (fs : Files) :
    (runExecutors run (e :: rest) fs).2.1.head? = some (run e fs).2 := by
  simp only [runExecutors]
  split <;> simp

/-- C7. A task with exactly one executor and no inputs or outputs, whose
command writes `s` to standard output and exits with code 0, is accepted by
`create`, and after the worker's attempt, whatever the staging environment,
the finished task has state `COMPLETE` and `Logs[0].Logs[0].Stdout` equal to
`s`. -/
theorem one_executor_task_completes (storage : Storage) (run : Runner) (env : StagingEnv)
    (spec : Task) (e : Executor) (fs remote : Files) (s : String)
    (hexec : spec.Executors = [e]) (hin : spec.Inputs = []) (hout : spec.Outputs = [])
    (hcmd : e.Command ≠ [])
    (hexit : (run e fs).2.ExitCode = 0) (hstdout : (run e fs).2.Stdout = s) :
    ∃ task, create storage spec = some task
      ∧ task.State = .QUEUED
      ∧ (task.finish (Worker.run storage run env task fs remote)).State = .COMPLETE
      ∧ ∃ taskLog executorLog,
          (task.finish (Worker.run storage run env task fs remote)).Logs[0]? = some taskLog
          ∧ taskLog.Logs[0]? = some executorLog
          ∧ executorLog.Stdout = s := by
  refine ⟨{ spec with State := .QUEUED, Logs := [] }, ?_, rfl, ?_, ?_⟩
  · simp [create, hexec, hin, hout, hcmd]
  · simp [Task.finish, Worker.run, hexec, hin, hout, orderInputs, orderOutputs, stageInputs,
      stageOutputs, runExecutors, hexit]
  · refine ⟨⟨[(run e fs).2]⟩, (run e fs).2, ?_, rfl, hstdout⟩
    simp [Task.finish, Worker.run, hexec, hin, hout, orderInputs, orderOutputs, stageInputs,
      stageOutputs, runExecutors, hexit]

/-- C7 at the command `echo hello world`. -/
theorem one_executor_task_completes_witness :
    ∃ task, create exampleStorage (shTask "echo hello world" ⟨0, 0, 0, []⟩) = some task
      ∧ task.State = .QUEUED
      ∧ (task.finish (Worker.run exampleStorage exampleRunner calmEnv task [] [])).State = .COMPLETE
      ∧ ∃ taskLog executorLog,
          (task.finish (Worker.run exampleStorage exampleRunner calmEnv task [] [])).Logs[0]?
            = some taskLog
          ∧ taskLog.Logs[0]? = some executorLog
          ∧ executorLog.Stdout = "hello world\n" :=
  one_executor_task_completes exampleStorage exampleRunner calmEnv
    (shTask "echo hello world" ⟨0, 0, 0, []⟩)
    { Image := "alpine", Command := ["sh", "-c", "echo hello world"], Workdir := [] } [] []
    "hello world\n" rfl rfl rfl (by decide) (by decide) (by decide)

theorem create_ok (storage : Storage) (spec task : Task) (h : create storage spec = some task) :
    task = { spec with State := .QUEUED, Logs := [] } := by
  unfold create at h
  split at h
  · injection h with h
    exact h.symm
  · cases h

/-- C8, as stated, fails. The task of Scenario B with an input at a missing key
is assigned (free capacity 3, 6, 15) and ends in `SYSTEM_ERROR` with no executor
log; a request for a volume that the adapter does not offer is not assigned
although CPU, RAM and disk suffice; a task without executors has no executor
log; a canceled task is not assigned; and for a task queued again after a
failed attempt `Logs[0]` is the earlier attempt. -/
theorem assignment_counterexample :
    (∃ task, create exampleStorage badInputTask = some task
      ∧ (Scheduler.dispatch exampleStorage exampleRunner calmEnv exampleAdapter task [] []).map
          (fun d => (d.assigned.free, d.task.State, d.task.Logs))
        = some (⟨3, 6, 15, []⟩, .SYSTEM_ERROR, [⟨[]⟩]))
    ∧ Scheduler.dispatch exampleStorage exampleRunner calmEnv exampleAdapter
        (shTask "echo I need resources!" ⟨1, 2, 5, ["scratch"]⟩) [] [] = none
    ∧ (Scheduler.dispatch exampleStorage exampleRunner calmEnv exampleAdapter idleTask [] []).map
          (fun d => (d.assigned.free, d.task.State, d.task.Logs))
        = some (⟨3, 6, 15, []⟩, .COMPLETE, [⟨[]⟩])
    ∧ Scheduler.dispatch exampleStorage exampleRunner calmEnv exampleAdapter canceledTask [] []
        = none
    ∧ (Scheduler.dispatch exampleStorage exampleRunner calmEnv exampleAdapter requeuedTask [] []).map
          (fun d => d.task.Logs[0]?)
        = some (some ⟨[]⟩) := by
  refine ⟨⟨{ badInputTask with State := .QUEUED, Logs := [] }, by decide, by decide⟩,
    by decide, by decide, by decide, by decide⟩

/-- C8, amended. For every newly created task that has an executor and whose
inputs are staged without failure, every resource request (cpu, ram, disk)
whose named volumes the adapter offers, and every adapter whose free CPU, RAM
and disk are at least the request: the scheduling decision assigns the task,
the adapter's free capacity after the assignment is exactly (CPU - cpu, RAM -
ram, Disk - disk), the task runs and the standard output of its first
executor is `Logs[0].Logs[0].Stdout`; the capacity is back at its former value
after the release. -/
theorem assignment_lowers_free_capacity (storage : Storage) (run : Runner) (env : StagingEnv)
    (a : Adapter) (spec task : Task) (fs remote fs1 : Files) (e : Executor)
    (rest : List Executor)
    (hcreate : create storage spec = some task)
    (hstage : stageInputs storage env remote (orderInputs env task.Inputs) fs = .ok fs1)
    (hexec : task.Executors = e :: rest)
    (hvol : ∀ v ∈ task.Resources.Volumes, v ∈ a.free.Volumes)
    (hcpu : task.Resources.CpuCores ≤ a.free.CpuCores)
    (hram : task.Resources.Ram ≤ a.free.Ram)
    (hdisk : task.Resources.Disk ≤ a.free.Disk) :
    ∃ d, Scheduler.dispatch storage run env a task fs remote = some d
      ∧ d.assigned.free.CpuCores = a.free.CpuCores - task.Resources.CpuCores
      ∧ d.assigned.free.Ram = a.free.Ram - task.Resources.Ram
      ∧ d.assigned.free.Disk = a.free.Disk - task.Resources.Disk
      ∧ d.assigned.free.CpuCores + task.Resources.CpuCores = a.free.CpuCores
      ∧ d.assigned.free.Ram + task.Resources.Ram = a.free.Ram
      ∧ d.assigned.free.Disk + task.Resources.Disk = a.free.Disk
      ∧ d.released = a
      ∧ ∃ taskLog executorLog, d.task.Logs[0]? = some taskLog
          ∧ taskLog.Logs[0]? = some executorLog
          ∧ executorLog.Stdout = (run e fs1).2.Stdout := by
  have htask := create_ok storage spec task hcreate
  have hq : task.State = .QUEUED := by rw [htask]
  have hlogs : task.Logs = [] := by rw [htask]
  have hfit : task.Resources.fits a.free = true := by
    simp only [Resources.fits, hcpu, hram, hdisk, decide_True, Bool.and_self, Bool.true_and,
      List.all_eq_true]
    intro v hv
    simpa using hvol v hv
  have hrel : ({ a with free := { a.free with
        CpuCores := a.free.CpuCores - task.Resources.CpuCores,
        Ram := a.free.Ram - task.Resources.Ram,
        Disk := a.free.Disk - task.Resources.Disk } } : Adapter).release task.Resources = a := by
    simp only [Adapter.release, Nat.sub_add_cancel hcpu, Nat.sub_add_cancel hram,
      Nat.sub_add_cancel hdisk]
  refine ⟨{ assigned := { a with free := { a.free with
                CpuCores := a.free.CpuCores - task.Resources.CpuCores,
                Ram := a.free.Ram - task.Resources.Ram,
                Disk := a.free.Disk - task.Resources.Disk } },
            task := task.finish (Worker.run storage run env task fs remote),
            released := a },
    by simp [Scheduler.dispatch, Adapter.assign, hfit, hq, hrel], rfl, rfl, rfl,
    Nat.sub_add_cancel hcpu, Nat.sub_add_cancel hram, Nat.sub_add_cancel hdisk, rfl, ?_⟩
  have hhead := runExecutors_head run e rest fs1
  refine ⟨(Worker.run storage run env task fs remote).log, (run e fs1).2,
    by simp [Task.finish, hlogs], ?_, rfl⟩
  simp only [Worker.run, hstage, hexec]
  split
  · split <;> simpa [List.head?_eq_getElem?] using hhead
  · simpa [List.head?_eq_getElem?] using hhead

/-- C8, amended, at Scenario B: the request CPU=1, RAM=2, Disk=5 on free
capacity CPU=4, RAM=8, Disk=20 leaves CPU=3, RAM=6, Disk=15, and the output of
`echo` is logged. -/
theorem assignment_lowers_free_capacity_witness :
    ∃ d, Scheduler.dispatch exampleStorage exampleRunner calmEnv exampleAdapter
          (shTask "echo I need resources!" ⟨1, 2, 5, []⟩) [] [] = some d
      ∧ d.assigned.free.CpuCores = 3 ∧ d.assigned.free.Ram = 6 ∧ d.assigned.free.Disk = 15
      ∧ ∃ taskLog executorLog, d.task.Logs[0]? = some taskLog
          ∧ taskLog.Logs[0]? = some executorLog
          ∧ executorLog.Stdout = "I need resources!\n" := by
  obtain ⟨d, h, h1, h2, h3, _, _, _, _, taskLog, executorLog, h4, h5, h6⟩ :=
    assignment_lowers_free_capacity exampleStorage exampleRunner calmEnv exampleAdapter
      (shTask "echo I need resources!" ⟨1, 2, 5, []⟩)
      (shTask "echo I need resources!" ⟨1, 2, 5, []⟩) [] [] []
      { Image := "alpine", Command := ["sh", "-c", "echo I need resources!"], Workdir := [] } []
      (by decide) rfl rfl (by decide) (by decide) (by decide) (by decide)
  exact ⟨d, h, h1, h2, h3, taskLog, executorLog, h4, h5, by rw [h6]; decide⟩

/-! ## Outputs of a completed task -/

theorem Storage.Put_ok (storage : Storage) (fault : Option Nat) (remote fs : Files)
    (url : StorageURL) (path : Path) (type : FileType) (remote' : Files)
    (h : storage.Put fault remote fs url path type = .ok remote') :
    (∃ b, storage.resolve url = some b ∧ b.supports url = true)
    ∧ (type = .FILE → ∃ c, fs.lookup path = some c ∧ remote' = (url.addr, c) :: remote)
    ∧ (type = .DIRECTORY → (copyTree path url.addr fs).isEmpty = false
        ∧ remote' = copyTree path url.addr fs ++ removeTree url.addr remote) := by
  unfold Storage.Put at h
  cases hres : storage.resolve url with
  | none => simp [hres] at h
  | some b =>
    simp only [hres] at h
    obtain ⟨hs, hf, hd⟩ := Backend.put_ok b fault remote fs url path type remote' h
    exact ⟨⟨b, rfl, hs⟩, hf, hd⟩

theorem Storage.Put_lookup_other (storage : Storage) (fault : Option Nat) (remote fs : Files)
    (url : StorageURL) (path : Path) (type : FileType) (remote' : Files)
    (h : storage.Put fault remote fs url path type = .ok remote') (k : Funnel.Path)
    (hk : ¬ url.addr <+: k) :
    remote'.lookup k = remote.lookup k := by
  obtain ⟨_, hfile, hdir⟩ := Storage.Put_ok storage fault remote fs url path type remote' h
  cases type with
  | FILE =>
    obtain ⟨c, _, rfl⟩ := hfile rfl
    have e : (k == url.addr) = false := by
      rw [beq_eq_false_iff_ne]
      intro hkk
      exact hk (hkk ▸ List.prefix_refl _)
    simp only [List.lookup_cons, e]
  | DIRECTORY =>
    rw [(hdir rfl).2, lookup_copyTree_append_other _ _ _ _ k hk, lookup_removeTree_other _ _ k hk]

theorem stageOutputs_lookup_other (storage : Storage) (env : StagingEnv) (fs : Files)
    (outs : List Output) (remote remote' : Files)
    (h : stageOutputs storage env fs outs remote = .ok remote') (k : Path)
    (hk : ∀ o ∈ outs, ¬ o.Url.addr <+: k) :
    remote'.lookup k = remote.lookup k := by
  induction outs generalizing remote with
  | nil =>
    simp only [stageOutputs] at h
    injection h with h
    rw [h]
  | cons o rest ih =>
    simp only [stageOutputs] at h
    cases hput : storage.Put (env.putFault o.Url) remote fs o.Url o.Path o.Type_ with
    | error e => simp [hput] at h
    | ok r1 =>
      simp only [hput] at h
      rw [ih r1 h (fun o' ho' => hk o' (List.mem_cons_of_mem _ ho'))]
      exact Storage.Put_lookup_other storage _ remote fs o.Url o.Path o.Type_ r1 hput k
        (hk o (List.mem_cons_self _ _))

theorem apart_not_below (a b : Output) (hab : Output.Apart a b) (k : Path)
    (hk : a.Url.addr <+: k) : ¬ b.Url.addr <+: k := by
  intro hb
  rcases List.prefix_or_prefix_of_prefix hk hb with h | h
  · exact hab.1 h
  · exact hab.2 h

theorem covers_below (o : Output) (rel : Path) : o.Url.addr <+: o.Url.addr ++ rel :=
  List.prefix_append _ _

theorem stageOutputs_stored (storage : Storage) (env : StagingEnv) (fs : Files)
    (outs : List Output) (remote remote' : Files)
    (h : stageOutputs storage env fs outs remote = .ok remote')
    (hapart : outs.Pairwise Output.Apart) (o : Output) (ho : o ∈ outs) :
    Output.Stored fs remote' storage o := by
  induction outs generalizing remote with
  | nil => simp at ho
  | cons o1 rest ih =>
    simp only [stageOutputs] at h
    cases hput : storage.Put (env.putFault o1.Url) remote fs o1.Url o1.Path o1.Type_ with
    | error e => simp [hput] at h
    | ok r1 =>
      simp only [hput] at h
      rw [List.pairwise_cons] at hapart
      rcases List.mem_cons.1 ho with rfl | hmem
      · obtain ⟨⟨b, hb, _⟩, hfile, hdir⟩ :=
          Storage.Put_ok storage _ remote fs o.Url o.Path o.Type_ r1 hput
        have hkeep : ∀ k, o.Url.addr <+: k → remote'.lookup k = r1.lookup k := fun k hk =>
          stageOutputs_lookup_other storage env fs rest r1 remote' h k
            (fun o' ho' => apart_not_below o o' (hapart.1 o' ho') k hk)
        refine ⟨⟨b, hb⟩, ?_, ?_⟩
        · intro rel hrel
          rw [hkeep _ (covers_below o rel)]
          cases ht : o.Type_ with
          | FILE =>
            rw [ht] at hrel
            have hrel' : rel = [] := hrel
            subst hrel'
            obtain ⟨c, hc, rfl⟩ := hfile ht
            simp [List.lookup_cons, hc]
          | DIRECTORY =>
            rw [ht] at hrel
            rw [(hdir ht).2, lookup_transfer _ _ _ _ rel hrel]
        · cases ht : o.Type_ with
          | FILE =>
            obtain ⟨c, hc, _⟩ := hfile ht
            exact ⟨[], c, rfl, by simpa using hc⟩
          | DIRECTORY =>
            obtain ⟨rel, c, hrel, hc⟩ := lookup_of_copyTree_nonempty _ _ _ (hdir ht).1
            exact ⟨rel, c, hrel, hc⟩
      · exact ih r1 h hapart.2 hmem

theorem Storage.Get_stored (storage : Storage) (fs remote : Files) (o : Output)
    (hs : Output.Stored fs remote storage o) (fsd : Files) (dest : Funnel.Path) :
    ∃ fsd', storage.Get none remote fsd o.Url dest o.Type_ = .ok fsd'
      ∧ (∀ rel, o.Type_.covers rel → fsd'.lookup (dest ++ rel) = fs.lookup (o.Path ++ rel)) := by
  obtain ⟨⟨b, hb⟩, hsame, rel0, c0, hrel0, hc0⟩ := hs
  have hsup : b.supports o.Url = true := by
    have := List.find?_some hb
    simpa using this
  cases ht : o.Type_ with
  | FILE =>
    rw [ht] at hsame hrel0
    have hrel0' : rel0 = [] := hrel0
    subst hrel0'
    have hc0' : fs.lookup o.Path = some c0 := by simpa using hc0
    have hr : remote.lookup o.Url.addr = some c0 := by
      have := hsame [] rfl
      simp only [List.append_nil] at this
      rw [this, hc0']
    refine ⟨(dest, c0) :: fsd, by simp [Storage.Get, hb, Backend.get, hsup, hr, faultHits], ?_⟩
    intro rel hrel
    have hrel' : rel = [] := hrel
    subst hrel'
    simpa [List.lookup_cons] using hc0'.symm
  | DIRECTORY =>
    rw [ht] at hsame hrel0
    have hr : remote.lookup (o.Url.addr ++ rel0) = some c0 := by
      rw [hsame rel0 hrel0, hc0]
    have hne := copyTree_nonempty_of_lookup o.Url.addr dest remote rel0 c0 hrel0 hr
    refine ⟨copyTree o.Url.addr dest remote ++ removeTree dest fsd,
      by simp [Storage.Get, hb, Backend.get, hsup, hne, faultHits], ?_⟩
    intro rel hrel
    rw [lookup_transfer _ _ _ _ rel hrel, hsame rel hrel]

theorem Worker.run_complete (storage : Storage) (run : Runner) (env : StagingEnv) (task : Task)
    (fs remote : Files)
    (h : (Worker.run storage run env task fs remote).state = .COMPLETE) :
    stageOutputs storage env (Worker.run storage run env task fs remote).fs
        (orderOutputs env task.Outputs) remote
      = .ok (Worker.run storage run env task fs remote).remote := by
  unfold Worker.run at h ⊢
  cases hin : stageInputs storage env remote (orderInputs env task.Inputs) fs with
  | error e => simp [hin] at h
  | ok fs1 =>
    simp only [hin] at h ⊢
    cases hok : (runExecutors run task.Executors fs1).2.2
    · simp [hok] at h
    · simp only [hok, if_true] at h ⊢
      cases hout : stageOutputs storage env (runExecutors run task.Executors fs1).1
          (orderOutputs env task.Outputs) remote with
      | error e => simp [hout] at h
      | ok r => simpa using hout

theorem apart_symm {a b : Output} (h : Output.Apart a b) : Output.Apart b a :=
  ⟨h.2, h.1⟩

/-- C6, as stated, fails, in whichever order the outputs are staged. When two
`FILE` outputs share a URL the task completes and `get` returns for both the
content of the output staged last: `B` where the executor wrote `A` at the
first output's path, or, in the other order, `A` where it wrote `B` at the
second's. When a `FILE` output is stored below the URL of a `DIRECTORY`
output, the file staged last replaces `out/x` of the directory, or, in the
other order, the directory replaces the file. -/
theorem complete_outputs_counterexample :
    ((Worker.run exampleStorage exampleRunner calmEnv clashTask [] []).state = .COMPLETE
      ∧ (Worker.run exampleStorage exampleRunner calmEnv clashTask [] []).fs.lookup ["work", "a"]
          = some "A\n"
      ∧ exampleStorage.Get none
          (Worker.run exampleStorage exampleRunner calmEnv clashTask [] []).remote []
          (bucketURL ["out"]) ["test_tmp", "a"] .FILE = .ok [(["test_tmp", "a"], "B\n")])
    ∧ ((Worker.run exampleStorage exampleRunner (lateEnv ["work", "a"]) clashTask [] []).state
          = .COMPLETE
      ∧ (Worker.run exampleStorage exampleRunner (lateEnv ["work", "a"]) clashTask [] []).fs.lookup
          ["work", "b"] = some "B\n"
      ∧ exampleStorage.Get none
          (Worker.run exampleStorage exampleRunner (lateEnv ["work", "a"]) clashTask [] []).remote []
          (bucketURL ["out"]) ["test_tmp", "b"] .FILE = .ok [(["test_tmp", "b"], "A\n")])
    ∧ ((Worker.run exampleStorage exampleRunner calmEnv nestedTask [] []).state = .COMPLETE
      ∧ (Worker.run exampleStorage exampleRunner calmEnv nestedTask [] []).fs.lookup
          ["work", "out", "x"] = some "A\n"
      ∧ (exampleStorage.Get none
          (Worker.run exampleStorage exampleRunner calmEnv nestedTask [] []).remote []
          (bucketURL ["out"]) ["test_tmp", "out"] .DIRECTORY).map
            (fun fsd => fsd.lookup ["test_tmp", "out", "x"]) = .ok (some "B\n"))
    ∧ ((Worker.run exampleStorage exampleRunner (lateEnv ["work", "out"]) nestedTask [] []).state
          = .COMPLETE
      ∧ (Worker.run exampleStorage exampleRunner (lateEnv ["work", "out"]) nestedTask [] []).fs.lookup
          ["work", "b"] = some "B\n"
      ∧ exampleStorage.Get none
          (Worker.run exampleStorage exampleRunner (lateEnv ["work", "out"]) nestedTask [] []).remote
          [] (bucketURL ["out", "x"]) ["test_tmp", "b"] .FILE = .ok [(["test_tmp", "b"], "A\n")]) :=
  ⟨⟨by decide, by decide, rfl⟩, ⟨by decide, by decide, rfl⟩, ⟨by decide, by decide, rfl⟩,
    ⟨by decide, by decide, rfl⟩⟩

/-- C6, amended. For every task whose attempt ends in `COMPLETE` and whose
output URLs neither coincide nor lie one below another, in whichever order the
outputs were staged, every declared output is retrievable from its URL through
the registry: a `get` that meets no network failure succeeds, into any local
file system and destination, and what it leaves at the destination is what the
executors left at the output's local path, the content of a `FILE` and every
relative path with its content for a `DIRECTORY`; the local path does hold a
file. -/
theorem complete_outputs_retrievable (storage : Storage) (run : Runner) (env : StagingEnv)
    (task : Task) (fs remote : Files) (o : Output) (fsd : Files) (dest : Path)
    (hstate : (Worker.run storage run env task fs remote).state = .COMPLETE)
    (hapart : task.Outputs.Pairwise Output.Apart)
    (ho : o ∈ task.Outputs) :
    (∃ fsd', storage.Get none (Worker.run storage run env task fs remote).remote fsd o.Url dest
          o.Type_ = .ok fsd'
      ∧ ∀ rel, o.Type_.covers rel →
          fsd'.lookup (dest ++ rel)
            = (Worker.run storage run env task fs remote).fs.lookup (o.Path ++ rel))
    ∧ (∃ rel c, o.Type_.covers rel
        ∧ (Worker.run storage run env task fs remote).fs.lookup (o.Path ++ rel) = some c) := by
  have hperm : (orderOutputs env task.Outputs).Perm task.Outputs :=
    List.perm_insertionSort _ _
  have hapart' : (orderOutputs env task.Outputs).Pairwise Output.Apart :=
    (hperm.pairwise_iff (fun h => apart_symm h)).2 hapart
  have ho' : o ∈ orderOutputs env task.Outputs := hperm.mem_iff.2 ho
  have hstored := stageOutputs_stored storage env _ (orderOutputs env task.Outputs) remote _
    (Worker.run_complete storage run env task fs remote hstate) hapart' o ho'
  exact ⟨Storage.Get_stored storage _ _ o hstored fsd dest, hstored.2.2⟩

/-- C6, amended, at the task of the storage test: the output file reads back
with the content the executor left. -/
theorem complete_outputs_retrievable_witness :
    ∃ fsd', exampleStorage.Get none
          (Worker.run exampleStorage exampleRunner calmEnv s3Task [] uploaded).remote
          [] (bucketURL ["test-output-file.txt"]) ["test_tmp", "test-s3-file.txt"] .FILE = .ok fsd'
      ∧ fsd'.lookup ["test_tmp", "test-s3-file.txt"]
          = (Worker.run exampleStorage exampleRunner calmEnv s3Task [] uploaded).fs.lookup
              ["opt", "workdir", "test-output-file.txt"] := by
  obtain ⟨⟨fsd', h1, h2⟩, _⟩ := complete_outputs_retrievable exampleStorage exampleRunner calmEnv
    s3Task [] uploaded
    ⟨bucketURL ["test-output-file.txt"], ["opt", "workdir", "test-output-file.txt"], .FILE⟩
    [] ["test_tmp", "test-s3-file.txt"] (by decide) (by decide) (by decide)
  exact ⟨fsd', h1, by simpa using h2 [] rfl⟩

/-- The storage test's expectation: the output file and the file of the output
directory both read back as the three staged inputs in sorted path order. -/
theorem s3Task_outputs :
    (Worker.run exampleStorage exampleRunner calmEnv s3Task [] uploaded).remote.lookup
        (bucketURL ["test-output-file.txt"]).addr = some "file1 content\nfile2 content\nhello\n"
    ∧ (Worker.run exampleStorage exampleRunner calmEnv s3Task [] uploaded).remote.lookup
        (bucketURL ["test-output-directory", "test-output-file.txt"]).addr
          = some "file1 content\nfile2 content\nhello\n" := by
  decide

end Funnel
